import Mathlib

/-!
Interface iterator of lib/isc/unix/interfaceiter.c and bit sets of dns/bit.h

A shallow embedding of the common part of the network-interface iterator
(`get_addr`, `isc_interfaceiter_current`, `isc_interfaceiter_first`,
`isc_interfaceiter_next`, `isc_interfaceiter_destroy`) and of the bit-set macros
(`DNS_BIT_SET`, `DNS_BIT_CLEAR`, `DNS_BIT_CHECK`), together with the properties
that the design document states about them.

Conventions of the embedding:

* a C function that can fail a `REQUIRE` / `INSIST` returns a `Run`;
* the `for (;;)` loops take a fuel argument and answer `Run.timeout` when it
  is used up before the loop has left;
* the backend adapter (`internal_first`, `internal_next`, `internal_current`,
  `internal_destroy`), which is compiled in from one of the `ifiter_*.c`
  files, is a parameter of the engine;
* bytes are natural numbers read modulo 256.
-/

set_option autoImplicit false

/-! ## Outcomes -/

/-- Outcome of running a C function of the embedding. -/
inductive Run (α : Type) where
  /-- The function returned normally. -/
  | done (a : α)
  /-- A `REQUIRE` or `INSIST` failed: the process aborts. -/
  | abort
  /-- The fuel given to a loop ran out before the loop exited. -/
  | timeout
  deriving DecidableEq, Repr

/-- Modelled from the spec: the result codes of `isc/result.h` (not among the
sources at hand).  The engine distinguishes success, "no more", the per-record
"ignore", and any other error kind, which is kept with its numeric code. -/
inductive isc_result_t where
  | ISC_R_SUCCESS
  | ISC_R_NOMORE
  | ISC_R_IGNORE
  | ISC_R_FAILED (code : Nat)
  deriving DecidableEq, Repr

open isc_result_t

/-! ## Addresses -/

/-- Modelled from the spec: `isc_netaddr_t` of `isc/netaddr.h`, the Normalized
Address: a family tag, the payload (the 16 bytes of the union `type`, shared by
`type.in` and `type.in6`) and the zone. -/
structure isc_netaddr_t where
  family : Nat
  type : List Nat
  zone : Nat
  deriving DecidableEq, Repr

/-- A raw kernel address record `struct sockaddr`, described by the fields that
the two casts in `get_addr` expose: `sin_addr` through `(struct sockaddr_in *)`,
and `sin6_addr`, `sin6_scope_id` through `(struct sockaddr_in6 *)`.  The
remaining fields stand for the content that `get_addr` never reads (family tag,
ports, flow information, padding and whatever follows the record). -/
structure sockaddr where
  sa_family : Nat
  sin_port : Nat
  sin_addr : List Nat
  sin_zero : List Nat
  sin6_flowinfo : Nat
  sin6_addr : List Nat
  sin6_scope_id : Nat
  trailing : List Nat
  deriving DecidableEq, Repr

/-- What the build and the host provide to `get_addr`: the values of the
address-family constants (distinct, as they label two cases of one `switch`),
whether `ISC_PLATFORM_HAVESCOPEID` is defined, and the name-to-index service
`if_nametoindex`. -/
structure Platform where
  AF_INET : Nat
  AF_INET6 : Nat
  distinct : AF_INET ≠ AF_INET6
  ISC_PLATFORM_HAVESCOPEID : Bool
  if_nametoindex : String → Nat

/-- Byte `i` of a byte array (bytes are read modulo 256; reading past the end
of the list yields 0). -/
def octet (xs : List Nat) (i : Nat) : Nat := xs.getD i 0 % 256

/-- A 32-bit unsigned value. -/
def uint32 (n : Nat) : Nat := n % 4294967296

/-- The first `n` bytes of `src`, as `memcpy` reads them. -/
def bytes (src : List Nat) (n : Nat) : List Nat := (List.range n).map (octet src)

/-- `memcpy(dst, src, n)` on byte arrays: the first `n` bytes of `dst` are
replaced by those of `src`, the others are kept. -/
def memcpy (dst src : List Nat) (n : Nat) : List Nat := bytes src n ++ dst.drop n

/-- `memset(dst, 0, sizeof(*dst))` on a normalized address. -/
def memset_zero (_dst : isc_netaddr_t) : isc_netaddr_t :=
  { family := 0, type := List.replicate 16 0, zone := 0 }

/-- Modelled from the spec: the macro `IN6_IS_ADDR_LINKLOCAL` of
`<netinet/in.h>`: the address lies in fe80::/10 (byte 0 is 0xfe and the two
high bits of byte 1 are 10). -/
def IN6_IS_ADDR_LINKLOCAL (a : List Nat) : Bool :=
  octet a 0 == 0xfe && (octet a 1 &&& 0xc0) == 0x80

/-- Modelled from the spec: `isc_netaddr_setzone` of `netaddr.c` records the
32-bit zone in the address. -/
def isc_netaddr_setzone (netaddr : isc_netaddr_t) (zone : Nat) : isc_netaddr_t :=
  { netaddr with zone := uint32 zone }

/-- `ntohs` applied to the two bytes copied from `s6_addr[2]`, `s6_addr[3]`:
the 16-bit value in network (big-endian) order. -/
def zone16_of (s6_addr : List Nat) : Nat := 256 * octet s6_addr 2 + octet s6_addr 3

/-- `get_addr` of interfaceiter.c: extract the network address part of a raw
record.  `dst` is the previous content of the destination, `ifname` is `none`
for a NULL name. -/
def get_addr (P : Platform) (family : Nat) (dst : isc_netaddr_t) (src : sockaddr)
    (ifname : Option String) : Run isc_netaddr_t :=
  -- clear any remaining value for safety
  let dst := memset_zero dst
  let dst := { dst with family := family }
  if family = P.AF_INET then
    Run.done { dst with type := memcpy dst.type src.sin_addr 4 }
  else if family = P.AF_INET6 then
    let dst := { dst with type := memcpy dst.type src.sin6_addr 16 }
    if P.ISC_PLATFORM_HAVESCOPEID then
      if uint32 src.sin6_scope_id ≠ 0 then
        Run.done (isc_netaddr_setzone dst (uint32 src.sin6_scope_id))
      else if IN6_IS_ADDR_LINKLOCAL src.sin6_addr then
        let zone16 := zone16_of src.sin6_addr
        if zone16 ≠ 0 then
          -- the zone ID is embedded
          let dst := isc_netaddr_setzone dst zone16
          Run.done { dst with type := (dst.type.set 2 0).set 3 0 }
        else
          match ifname with
          | some name =>
            let zone := uint32 (P.if_nametoindex name)
            if zone ≠ 0 then Run.done (isc_netaddr_setzone dst zone) else Run.done dst
          | none => Run.done dst
      else Run.done dst
    else Run.done dst
  else
    -- default: INSIST(0)
    Run.abort

/-! ## The iterator -/

/-- Modelled from the spec: `isc_interface_t` of `isc/interfaceiter.h`, the
Interface Record: name, index, flags, and the address / netmask /
destination-or-broadcast triple. -/
structure isc_interface_t where
  name : String
  index : Nat
  flags : Nat
  address : isc_netaddr_t
  netmask : isc_netaddr_t
  dstaddress : isc_netaddr_t
  deriving DecidableEq, Repr

/-- The iterator object `struct isc_interfaceiter`.  Its declaration lives in the
backend file; the common code uses `magic`, `mctx`, `buf`, `bufsize`, `current`
and `result`.  `backend` stands for the adapter-private cursor fields, `buf` is
`none` for a NULL scratch buffer. -/
structure isc_interfaceiter (σ : Type) where
  magic : Nat
  mctx : Nat
  backend : σ
  buf : Option Nat
  bufsize : Nat
  current : isc_interface_t
  result : isc_result_t
  deriving DecidableEq, Repr

/-- The backend adapter compiled into the engine.  Every function receives the
iterator object, as in C, and yields the object it leaves behind.  Whatever
`internal_first` reports is dropped by the statement `internal_first(iter);`. -/
structure Adapter (σ : Type) where
  IFITER_MAGIC : Nat
  internal_first : isc_interfaceiter σ → isc_result_t × isc_interfaceiter σ
  internal_next : isc_interfaceiter σ → isc_result_t × isc_interfaceiter σ
  internal_current : isc_interfaceiter σ → isc_result_t × isc_interfaceiter σ
  internal_destroy : isc_interfaceiter σ → isc_interfaceiter σ

/-- What a pointer handed to `isc_mem_put` designates: the scratch buffer
`iter->buf` (with its address) or the iterator object `iter` itself. -/
inductive Pointer where
  | buf (addr : Nat)
  | iter
  deriving DecidableEq, Repr

/-- Calls that the engine makes to its collaborators, logged in call order. -/
inductive Call where
  | internal_first
  | internal_next
  | internal_current
  | internal_destroy
  | isc_mem_put (mctx : Nat) (ptr : Pointer) (size : Nat)
  deriving DecidableEq, Repr

/-- The call releases a scratch buffer: it is an `isc_mem_put` of `iter->buf`. -/
def is_buffer_release : Call → Bool
  | Call.isc_mem_put _ (Pointer.buf _) _ => true
  | _ => false

/-- `VALID_IFITER(iter)`: the magic number is the one of the backend. -/
def VALID_IFITER {σ : Type} (A : Adapter σ) (iter : isc_interfaceiter σ) : Bool :=
  iter.magic == A.IFITER_MAGIC

/-- `isc_interfaceiter_current`: copy the current record into `*ifdata`.  Yields
the returned code, the new content of `*ifdata`, and the iterator object. -/
def isc_interfaceiter_current {σ : Type} (iter : isc_interfaceiter σ)
    (_ifdata : isc_interface_t) :
    Run (isc_result_t × isc_interface_t × isc_interfaceiter σ) :=
  if iter.result ≠ ISC_R_SUCCESS then Run.abort
  else Run.done (ISC_R_SUCCESS, iter.current, iter)

/-- The `for (;;)` loop of `isc_interfaceiter_first`; `log` collects the calls
made so far. -/
def first_loop {σ : Type} (A : Adapter σ) :
    Nat → isc_interfaceiter σ → List Call → Run (isc_result_t × isc_interfaceiter σ × List Call)
  | 0, _, _ => Run.timeout
  | fuel + 1, iter, log =>
    let c := A.internal_current iter
    let log := log ++ [Call.internal_current]
    if c.1 ≠ ISC_R_IGNORE then Run.done (c.1, c.2, log)
    else
      let n := A.internal_next c.2
      let log := log ++ [Call.internal_next]
      if n.1 ≠ ISC_R_SUCCESS then Run.done (n.1, n.2, log)
      else first_loop A fuel n.2 log

/-- The `for (;;)` loop of `isc_interfaceiter_next`. -/
def next_loop {σ : Type} (A : Adapter σ) :
    Nat → isc_interfaceiter σ → List Call → Run (isc_result_t × isc_interfaceiter σ × List Call)
  | 0, _, _ => Run.timeout
  | fuel + 1, iter, log =>
    let n := A.internal_next iter
    let log := log ++ [Call.internal_next]
    if n.1 ≠ ISC_R_SUCCESS then Run.done (n.1, n.2, log)
    else
      let c := A.internal_current n.2
      let log := log ++ [Call.internal_current]
      if c.1 ≠ ISC_R_IGNORE then Run.done (c.1, c.2, log)
      else next_loop A fuel c.2 log

/-- The tail of both positioning functions: `iter->result = result; return (result);`. -/
def store_result {σ : Type} :
    Run (isc_result_t × isc_interfaceiter σ × List Call) →
    Run (isc_result_t × isc_interfaceiter σ × List Call)
  | Run.done (result, iter, log) => Run.done (result, { iter with result := result }, log)
  | Run.abort => Run.abort
  | Run.timeout => Run.timeout

/-- `isc_interfaceiter_first`.  Yields the returned code, the iterator object and
the calls made to the adapter. -/
def isc_interfaceiter_first {σ : Type} (A : Adapter σ) (fuel : Nat)
    (iter : isc_interfaceiter σ) : Run (isc_result_t × isc_interfaceiter σ × List Call) :=
  if ¬ VALID_IFITER A iter then Run.abort
  else
    let iter := (A.internal_first iter).2
    store_result (first_loop A fuel iter [Call.internal_first])

/-- `isc_interfaceiter_next`. -/
def isc_interfaceiter_next {σ : Type} (A : Adapter σ) (fuel : Nat)
    (iter : isc_interfaceiter σ) : Run (isc_result_t × isc_interfaceiter σ × List Call) :=
  if ¬ VALID_IFITER A iter then Run.abort
  else if iter.result ≠ ISC_R_SUCCESS then Run.abort
  else store_result (next_loop A fuel iter [])

/-- `isc_interfaceiter_destroy`.  `iterp` is `none` for a NULL `iterp` and
`some none` when `*iterp` is NULL; `sizeof_iter` is `sizeof(*iter)`, fixed by
the backend's declaration of the object.  Yields the new content of `*iterp`,
the iterator object as it is handed back to the allocator, and the calls made. -/
def isc_interfaceiter_destroy {σ : Type} (A : Adapter σ) (sizeof_iter : Nat)
    (iterp : Option (Option (isc_interfaceiter σ))) :
    Run (Option (isc_interfaceiter σ) × isc_interfaceiter σ × List Call) :=
  match iterp with
  -- REQUIRE(iterp != NULL)
  | none => Run.abort
  -- REQUIRE(VALID_IFITER(iter)) on a NULL iter
  | some none => Run.abort
  | some (some iter) =>
    if ¬ VALID_IFITER A iter then Run.abort
    else
      let iter := A.internal_destroy iter
      let log := [Call.internal_destroy]
      let log :=
        match iter.buf with
        | some buf => log ++ [Call.isc_mem_put iter.mctx (Pointer.buf buf) iter.bufsize]
        | none => log
      let iter := { iter with magic := 0 }
      let log := log ++ [Call.isc_mem_put iter.mctx Pointer.iter sizeof_iter]
      Run.done (none, iter, log)

/-- The description of `isc_interfaceiter_first` in words: reset the adapter
with `internal_first`, interpret the record at the cursor with
`internal_current`, return that outcome if it is not "ignore", and otherwise
continue as the loop of `isc_interfaceiter_next` from that cursor. -/
def isc_interfaceiter_first_spec {σ : Type} (A : Adapter σ) (fuel : Nat)
    (iter : isc_interfaceiter σ) : Run (isc_result_t × isc_interfaceiter σ × List Call) :=
  if ¬ VALID_IFITER A iter then Run.abort
  else
    let iter := (A.internal_first iter).2
    let c := A.internal_current iter
    if c.1 ≠ ISC_R_IGNORE then
      Run.done (c.1, { c.2 with result := c.1 }, [Call.internal_first, Call.internal_current])
    else
      store_result (next_loop A fuel c.2 [Call.internal_first, Call.internal_current])

/-- Two iterator objects hold the same adapter data: they agree on everything
but the stored `result` and `current`. -/
def same_adapter_data {σ : Type} (a b : isc_interfaceiter σ) : Prop :=
  a.magic = b.magic ∧ a.mctx = b.mctx ∧ a.backend = b.backend ∧ a.buf = b.buf ∧
  a.bufsize = b.bufsize

/-- The adapter works from its own data only: on two objects with the same
adapter data its functions report the same outcome and leave the same adapter
data, and a successful interpretation stores the same record. -/
def reads_own_data {σ : Type} (A : Adapter σ) : Prop :=
  ∀ a b : isc_interfaceiter σ, same_adapter_data a b →
    same_adapter_data (A.internal_first a).2 (A.internal_first b).2 ∧
    (A.internal_next a).1 = (A.internal_next b).1 ∧
    same_adapter_data (A.internal_next a).2 (A.internal_next b).2 ∧
    (A.internal_current a).1 = (A.internal_current b).1 ∧
    same_adapter_data (A.internal_current a).2 (A.internal_current b).2 ∧
    ((A.internal_current a).1 = ISC_R_SUCCESS →
      (A.internal_current a).2.current = (A.internal_current b).2.current)

/-- The adapter leaves the magic number of the object alone. -/
def preserves_magic {σ : Type} (A : Adapter σ) : Prop :=
  ∀ it : isc_interfaceiter σ,
    (A.internal_first it).2.magic = it.magic ∧
    (A.internal_next it).2.magic = it.magic ∧
    (A.internal_current it).2.magic = it.magic

/-- Modelled from the spec: a raw record of the backend as the engine meets it
through `internal_current`: the record is either interpreted into an Interface
Record or signalled as "ignore". -/
inductive RawRecord where
  | usable (ifdata : isc_interface_t)
  | ignored
  deriving DecidableEq, Repr

/-- Modelled from the spec: the Backend Cursor of a backend that walks a finite
table of raw records: the table and a position in it. -/
structure TableCursor where
  table : List RawRecord
  pos : Nat
  deriving DecidableEq, Repr

/-- Modelled from the spec: the Backend Adapter (the `ifiter_*.c` files are not
among the sources at hand) over a finite table.  `internal_first` resets the
cursor to the beginning and reports exhaustion for an empty table;
`internal_next` advances the cursor and reports "no more" when it has left the
table; `internal_current` interprets the record at the cursor, signalling
"ignore" for a record that is not to be presented, and reports exhaustion when
there is no record at the cursor. -/
def tableAdapter : Adapter TableCursor where
  IFITER_MAGIC := 0x49464954
  internal_first := fun iter =>
    (if iter.backend.table.length = 0 then ISC_R_NOMORE else ISC_R_SUCCESS,
     { iter with backend := { iter.backend with pos := 0 } })
  internal_next := fun iter =>
    (if iter.backend.table.length ≤ iter.backend.pos + 1 then ISC_R_NOMORE else ISC_R_SUCCESS,
     { iter with backend := { iter.backend with pos := iter.backend.pos + 1 } })
  internal_current := fun iter =>
    match iter.backend.table[iter.backend.pos]? with
    | some (RawRecord.usable ifdata) => (ISC_R_SUCCESS, { iter with current := ifdata })
    | some RawRecord.ignored => (ISC_R_IGNORE, iter)
    | none => (ISC_R_NOMORE, iter)
  internal_destroy := fun iter => iter

/-- The Interface Records that a table presents: those of its records that are
not ignored, in table order. -/
def accepted : List RawRecord → List isc_interface_t
  | [] => []
  | RawRecord.usable ifdata :: rest => ifdata :: accepted rest
  | RawRecord.ignored :: rest => accepted rest

/-- The traversal a caller performs after `isc_interfaceiter_first` has returned
`result`: while the result is success, read the record with
`isc_interfaceiter_current`, then call `isc_interfaceiter_next`.  Yields the
last result and the records read, in order. -/
def walk {σ : Type} (A : Adapter σ) (fuel : Nat) :
    Nat → isc_result_t → isc_interfaceiter σ → isc_interface_t → List isc_interface_t →
    Run (isc_result_t × List isc_interface_t)
  | 0, _, _, _, _ => Run.timeout
  | steps + 1, result, iter, ifdata, seen =>
    if result ≠ ISC_R_SUCCESS then Run.done (result, seen)
    else
      match isc_interfaceiter_current iter ifdata with
      | Run.done (_, ifdata, iter) =>
        match isc_interfaceiter_next A fuel iter with
        | Run.done (result, iter, _) => walk A fuel steps result iter ifdata (seen ++ [ifdata])
        | Run.abort => Run.abort
        | Run.timeout => Run.timeout
      | Run.abort => Run.abort
      | Run.timeout => Run.timeout

/-- A whole enumeration: `isc_interfaceiter_first`, then `walk`. -/
def enumerate {σ : Type} (A : Adapter σ) (fuel steps : Nat) (iter : isc_interfaceiter σ)
    (ifdata : isc_interface_t) : Run (isc_result_t × List isc_interface_t) :=
  match isc_interfaceiter_first A fuel iter with
  | Run.done (result, iter, _) => walk A fuel steps result iter ifdata []
  | Run.abort => Run.abort
  | Run.timeout => Run.timeout

/-! ## Concrete data used in the examples -/

/-- An IPv4 normalized address (family 2). -/
def inet4 (a b c d : Nat) : isc_netaddr_t :=
  { family := 2, type := [a, b, c, d, 0, 0, 0, 0, 0, 0, 0, 0, 0, 0, 0, 0], zone := 0 }

/-- The all-zero Interface Record. -/
def ifdata_zero : isc_interface_t :=
  { name := "", index := 0, flags := 0,
    address := inet4 0 0 0 0, netmask := inet4 0 0 0 0, dstaddress := inet4 0 0 0 0 }

/-- Interface `en0`: up, 192.0.2.5/24. -/
def en0 : isc_interface_t :=
  { name := "en0", index := 1, flags := 1,
    address := inet4 192 0 2 5, netmask := inet4 255 255 255 0, dstaddress := inet4 0 0 0 0 }

/-- Interface `lo0`: up and loopback, 127.0.0.1/8. -/
def lo0 : isc_interface_t :=
  { name := "lo0", index := 2, flags := 5,
    address := inet4 127 0 0 1, netmask := inet4 255 0 0 0, dstaddress := inet4 0 0 0 0 }

/-- An iterator of the table backend over `table` with the cursor at `pos`,
holding the record `current` and the last positioning outcome `result`. -/
def table_iter_at (table : List RawRecord) (pos : Nat) (current : isc_interface_t)
    (result : isc_result_t) : isc_interfaceiter TableCursor :=
  { magic := 0x49464954, mctx := 1, backend := { table := table, pos := pos },
    buf := none, bufsize := 0, current := current, result := result }

/-- A freshly created, not yet positioned iterator of the table backend over
`table`. -/
def table_iter (table : List RawRecord) : isc_interfaceiter TableCursor :=
  table_iter_at table 0 ifdata_zero (ISC_R_FAILED 25)

/-- The interface table of the scenario: `en0`, then `lo0`. -/
def two_interfaces : List RawRecord := [RawRecord.usable en0, RawRecord.usable lo0]

/-- A Linux-like platform: `AF_INET = 2`, `AF_INET6 = 10`, scope ids present,
and a name-to-index service that knows `en0` as interface 7. -/
def linux_like : Platform :=
  { AF_INET := 2, AF_INET6 := 10, distinct := by decide,
    ISC_PLATFORM_HAVESCOPEID := true,
    if_nametoindex := fun name => if name = "en0" then 7 else 0 }

/-- A raw record with the given IPv4 address, IPv6 address and scope id, and
arbitrary other content. -/
def raw_record (sa_family : Nat) (sin_addr sin6_addr : List Nat) (scope : Nat)
    (junk : List Nat) : sockaddr :=
  { sa_family := sa_family, sin_port := 53, sin_addr := sin_addr, sin_zero := junk,
    sin6_flowinfo := 0, sin6_addr := sin6_addr, sin6_scope_id := scope, trailing := junk }

/-- An iterator object that is not valid: its magic is 0, as
`isc_interfaceiter_destroy` leaves it behind, while `result` and `current` still
hold the last successful position on `en0`. -/
def stale_iter : isc_interfaceiter TableCursor :=
  { magic := 0, mctx := 1, backend := { table := two_interfaces, pos := 0 },
    buf := none, bufsize := 0, current := en0, result := ISC_R_SUCCESS }

/-! ## A backend whose table may hold malformed records -/

/-- A valid table iterator that owns a scratch buffer of 4096 bytes at address
64. -/
def buffered_iter : isc_interfaceiter TableCursor :=
  { magic := 0x49464954, mctx := 1, backend := { table := two_interfaces, pos := 1 },
    buf := some 64, bufsize := 4096, current := lo0, result := ISC_R_SUCCESS }

/-! ## Bit sets of dns/bit.h -/

/-- A value of type `dns_bitset_t`, which is `isc_uint64_t`: the number modulo
2^64. -/
def dns_bitset_t (n : Nat) : Nat := n % 18446744073709551616

/-- The mask `((dns_bitset_t)1 << (bit))`. -/
def dns_bit_mask (bit : Nat) : Nat := dns_bitset_t (1 <<< bit)

/-- `DNS_BIT_SET(bit, bitset)`: the new content of `*bitset` after
`*(bitset) |= ((dns_bitset_t)1 << (bit))`. -/
def DNS_BIT_SET (bit : Nat) (bitset : Nat) : Nat :=
  dns_bitset_t bitset ||| dns_bit_mask bit

/-- `DNS_BIT_CLEAR(bit, bitset)`: the new content of `*bitset` after
`*(bitset) &= ~((dns_bitset_t)1 << (bit))`; the complement of a 64-bit value
`x` is `2^64 - 1 - x`. -/
def DNS_BIT_CLEAR (bit : Nat) (bitset : Nat) : Nat :=
  dns_bitset_t bitset &&& (18446744073709551615 - dns_bit_mask bit)

/-- `DNS_BIT_CHECK(bit, bitset)`:
`ISC_TF((*(bitset) & ((dns_bitset_t)1 << (bit))) == ((dns_bitset_t)1 << (bit)))`. -/
def DNS_BIT_CHECK (bit : Nat) (bitset : Nat) : Bool :=
  (dns_bitset_t bitset &&& dns_bit_mask bit) == dns_bit_mask bit

/-! ## Address normalization: lemmas -/

theorem octet_lt (xs : List Nat) (i : Nat) : octet xs i < 256 := by
  unfold octet; omega

theorem bytes_length (src : List Nat) (n : Nat) : (bytes src n).length = n := by
  simp [bytes]

theorem bytes_getD (src : List Nat) (n i : Nat) (h : i < n) :
    (bytes src n).getD i 0 = octet src i := by
  simp [bytes, List.getD_eq_getElem?_getD, List.getElem?_map, List.getElem?_range h]

theorem memcpy_sixteen (src : List Nat) :
    memcpy [0, 0, 0, 0, 0, 0, 0, 0, 0, 0, 0, 0, 0, 0, 0, 0] src 16 = bytes src 16 := by
  simp [memcpy]

theorem memcpy_four (src : List Nat) :
    memcpy [0, 0, 0, 0, 0, 0, 0, 0, 0, 0, 0, 0, 0, 0, 0, 0] src 4
      = bytes src 4 ++ List.replicate 12 0 := by
  simp [memcpy]

theorem replicate_zero_getD (n j : Nat) : (List.replicate n 0).getD j 0 = 0 := by
  rw [List.getD_eq_getElem?_getD, List.getElem?_replicate]
  split <;> rfl

theorem zone16_of_lt (a : List Nat) : zone16_of a < 65536 := by
  have h2 := octet_lt a 2
  have h3 := octet_lt a 3
  unfold zone16_of; omega

theorem linklocal_iff (a : List Nat) :
    IN6_IS_ADDR_LINKLOCAL a = true ↔ octet a 0 = 0xfe ∧ octet a 1 &&& 0xc0 = 0x80 := by
  simp [IN6_IS_ADDR_LINKLOCAL]

/-! ## Address normalization: claims -/

/-- C7: IPv4 normalization depends only on the 4 address bytes.  Two raw records
with the same `sin_addr`, whatever else they hold, whatever the destination
held before and whatever the interface names are, are normalized by `get_addr`
with family `AF_INET` to the same address; its family is `AF_INET`, its first 4
payload bytes are `sin_addr`, every other payload byte is zero and its zone is
0. -/
theorem get_addr_inet_only_sin_addr (P : Platform) (dst₁ dst₂ : isc_netaddr_t)
    (src₁ src₂ : sockaddr) (ifname₁ ifname₂ : Option String)
    (h : src₁.sin_addr = src₂.sin_addr) :
    ∃ out : isc_netaddr_t,
      get_addr P P.AF_INET dst₁ src₁ ifname₁ = Run.done out ∧
      get_addr P P.AF_INET dst₂ src₂ ifname₂ = Run.done out ∧
      out.family = P.AF_INET ∧
      out.zone = 0 ∧
      out.type.length = 16 ∧
      (∀ i, i < 4 → out.type.getD i 0 = octet src₁.sin_addr i) ∧
      (∀ i, 4 ≤ i → out.type.getD i 0 = 0) := by
  refine ⟨{ family := P.AF_INET, type := bytes src₁.sin_addr 4 ++ List.replicate 12 0,
            zone := 0 }, ?_, ?_, rfl, rfl, ?_, ?_, ?_⟩
  · simp [get_addr, memset_zero, memcpy_four]
  · simp [get_addr, memset_zero, memcpy_four, h]
  · simp [bytes_length]
  · intro i hi
    have hlen : i < (bytes src₁.sin_addr 4).length := by simpa [bytes_length] using hi
    rw [List.getD_append _ _ _ _ hlen]
    exact bytes_getD _ _ _ hi
  · intro i hi
    have hlen : (bytes src₁.sin_addr 4).length ≤ i := by simpa [bytes_length] using hi
    rw [List.getD_append_right _ _ _ _ hlen]
    exact replicate_zero_getD _ _

/-- C7, at a concrete input: two records that agree on 192.0.2.5 and differ in
everything else. -/
theorem get_addr_inet_only_sin_addr_witness :
    ∃ out : isc_netaddr_t,
      get_addr linux_like linux_like.AF_INET (inet4 9 9 9 9)
        (raw_record 2 [192, 0, 2, 5] [1, 2, 3] 4 [7, 7]) (some "en0") = Run.done out ∧
      get_addr linux_like linux_like.AF_INET (inet4 1 1 1 1)
        (raw_record 0 [192, 0, 2, 5] [] 0 [255]) none = Run.done out ∧
      out.family = linux_like.AF_INET ∧
      out.zone = 0 ∧
      out.type.length = 16 ∧
      (∀ i, i < 4 →
        out.type.getD i 0 = octet (raw_record 2 [192, 0, 2, 5] [1, 2, 3] 4 [7, 7]).sin_addr i) ∧
      (∀ i, 4 ≤ i → out.type.getD i 0 = 0) :=
  get_addr_inet_only_sin_addr linux_like (inet4 9 9 9 9) (inet4 1 1 1 1)
    (raw_record 2 [192, 0, 2, 5] [1, 2, 3] 4 [7, 7]) (raw_record 0 [192, 0, 2, 5] [] 0 [255])
    (some "en0") none rfl

/-- C8: embedded scope extraction.  On a platform with scope ids, for a raw IPv6
record whose explicit scope id is 0, whose address is link-local and whose bytes
2..3 read as a big-endian 16-bit value that is not 0, `get_addr` with family
`AF_INET6` sets the zone to that value and yields the raw 16 bytes with bytes 2
and 3 zeroed, whatever the interface name is. -/
theorem get_addr_embedded_scope (P : Platform) (dst : isc_netaddr_t) (src : sockaddr)
    (ifname : Option String)
    (hP : P.ISC_PLATFORM_HAVESCOPEID = true)
    (hscope : uint32 src.sin6_scope_id = 0)
    (hll : octet src.sin6_addr 0 = 0xfe ∧ octet src.sin6_addr 1 &&& 0xc0 = 0x80)
    (hz : 256 * octet src.sin6_addr 2 + octet src.sin6_addr 3 ≠ 0) :
    ∃ out : isc_netaddr_t,
      get_addr P P.AF_INET6 dst src ifname = Run.done out ∧
      out.family = P.AF_INET6 ∧
      out.zone = 256 * octet src.sin6_addr 2 + octet src.sin6_addr 3 ∧
      out.type.length = 16 ∧
      (∀ i, i < 16 →
        out.type.getD i 0 = if i = 2 ∨ i = 3 then 0 else octet src.sin6_addr i) := by
  have hne : P.AF_INET6 ≠ P.AF_INET := fun e => P.distinct e.symm
  have hl : IN6_IS_ADDR_LINKLOCAL src.sin6_addr = true := (linklocal_iff _).2 hll
  have hz' : zone16_of src.sin6_addr ≠ 0 := hz
  have hlt := zone16_of_lt src.sin6_addr
  refine ⟨{ family := P.AF_INET6, type := ((bytes src.sin6_addr 16).set 2 0).set 3 0,
            zone := zone16_of src.sin6_addr }, ?_, rfl, rfl, ?_, ?_⟩
  · have hu : uint32 (zone16_of src.sin6_addr) = zone16_of src.sin6_addr := by
      unfold uint32; omega
    simp [get_addr, memset_zero, memcpy_sixteen, hne, hP, hscope, hl, hz',
      isc_netaddr_setzone, hu]
  · simp [bytes_length]
  · intro i hi
    simp only [bytes, List.range, List.range.loop, List.map, List.set]
    interval_cases i <;> simp

/-- C8, at a concrete input: fe80:5::1 without explicit scope id gives zone 5
and the address fe80::1. -/
theorem get_addr_embedded_scope_witness :
    ∃ out : isc_netaddr_t,
      get_addr linux_like linux_like.AF_INET6 (inet4 9 9 9 9)
        (raw_record 0 [] [0xfe, 0x80, 0, 5, 0, 0, 0, 0, 0, 0, 0, 0, 0, 0, 0, 1] 0 [7])
        (some "en0") = Run.done out ∧
      out.family = linux_like.AF_INET6 ∧
      out.zone = 256 * octet [0xfe, 0x80, 0, 5, 0, 0, 0, 0, 0, 0, 0, 0, 0, 0, 0, 1] 2
        + octet [0xfe, 0x80, 0, 5, 0, 0, 0, 0, 0, 0, 0, 0, 0, 0, 0, 1] 3 ∧
      out.type.length = 16 ∧
      (∀ i, i < 16 →
        out.type.getD i 0 = if i = 2 ∨ i = 3 then 0
          else octet [0xfe, 0x80, 0, 5, 0, 0, 0, 0, 0, 0, 0, 0, 0, 0, 0, 1] i) :=
  get_addr_embedded_scope linux_like (inet4 9 9 9 9)
    (raw_record 0 [] [0xfe, 0x80, 0, 5, 0, 0, 0, 0, 0, 0, 0, 0, 0, 0, 0, 1] 0 [7])
    (some "en0") rfl (by decide) (by decide) (by decide)

/-- C9: fallback scope.  On a platform with scope ids, for a raw IPv6 link-local
record with explicit scope id 0 and embedded value 0 at bytes 2..3, `get_addr`
sets the zone to the index that `if_nametoindex` returns for the supplied name
when that index is not 0, and leaves the zone 0 when no name is supplied or the
name resolves to 0; in every case the payload is the raw 16 bytes. -/
theorem get_addr_fallback_scope (P : Platform) (dst : isc_netaddr_t) (src : sockaddr)
    (ifname : Option String)
    (hP : P.ISC_PLATFORM_HAVESCOPEID = true)
    (hscope : uint32 src.sin6_scope_id = 0)
    (hll : octet src.sin6_addr 0 = 0xfe ∧ octet src.sin6_addr 1 &&& 0xc0 = 0x80)
    (hz : 256 * octet src.sin6_addr 2 + octet src.sin6_addr 3 = 0) :
    ∃ out : isc_netaddr_t,
      get_addr P P.AF_INET6 dst src ifname = Run.done out ∧
      out.family = P.AF_INET6 ∧
      out.type = bytes src.sin6_addr 16 ∧
      (∀ name, ifname = some name → uint32 (P.if_nametoindex name) ≠ 0 →
        out.zone = uint32 (P.if_nametoindex name)) ∧
      (∀ name, ifname = some name → uint32 (P.if_nametoindex name) = 0 → out.zone = 0) ∧
      (ifname = none → out.zone = 0) := by
  have hne : P.AF_INET6 ≠ P.AF_INET := fun e => P.distinct e.symm
  have hl : IN6_IS_ADDR_LINKLOCAL src.sin6_addr = true := (linklocal_iff _).2 hll
  have hz' : zone16_of src.sin6_addr = 0 := hz
  have huu : ∀ n, uint32 (uint32 n) = uint32 n := by
    intro n; unfold uint32; omega
  cases ifname with
  | none =>
    refine ⟨{ family := P.AF_INET6, type := bytes src.sin6_addr 16, zone := 0 },
      ?_, rfl, rfl, ?_, ?_, ?_⟩
    · simp [get_addr, memset_zero, memcpy_sixteen, hne, hP, hscope, hl, hz']
    · intro name h; cases h
    · intro name h; cases h
    · intro _; rfl
  | some name =>
    refine ⟨{ family := P.AF_INET6, type := bytes src.sin6_addr 16,
              zone := uint32 (P.if_nametoindex name) }, ?_, rfl, rfl, ?_, ?_, ?_⟩
    · by_cases hi : uint32 (P.if_nametoindex name) = 0
      · simp [get_addr, memset_zero, memcpy_sixteen, hne, hP, hscope, hl, hz', hi]
      · simp [get_addr, memset_zero, memcpy_sixteen, hne, hP, hscope, hl, hz', hi,
          isc_netaddr_setzone, huu]
    · intro name' h _
      cases h; rfl
    · intro name' h h0
      cases h; exact h0
    · intro h; cases h

/-- C9, at a concrete input: fe80::1 without explicit scope id on the interface
named en0, which resolves to index 7, gets zone 7. -/
theorem get_addr_fallback_scope_witness :
    ∃ out : isc_netaddr_t,
      get_addr linux_like linux_like.AF_INET6 (inet4 9 9 9 9)
        (raw_record 0 [] [0xfe, 0x80, 0, 0, 0, 0, 0, 0, 0, 0, 0, 0, 0, 0, 0, 1] 0 [7])
        (some "en0") = Run.done out ∧
      out.family = linux_like.AF_INET6 ∧
      out.type = bytes [0xfe, 0x80, 0, 0, 0, 0, 0, 0, 0, 0, 0, 0, 0, 0, 0, 1] 16 ∧
      out.zone = 7 := by
  obtain ⟨out, h1, h2, h3, h4, _, _⟩ :=
    get_addr_fallback_scope linux_like (inet4 9 9 9 9)
      (raw_record 0 [] [0xfe, 0x80, 0, 0, 0, 0, 0, 0, 0, 0, 0, 0, 0, 0, 0, 1] 0 [7])
      (some "en0") rfl (by decide) (by decide) (by decide)
  exact ⟨out, h1, h2, h3, h4 "en0" rfl (by decide)⟩

/-- C10: an explicit scope takes precedence.  On a platform with scope ids, for
a raw IPv6 record whose explicit scope id is not 0, `get_addr` with family
`AF_INET6` sets the zone to that scope id and copies exactly the 16 raw address
bytes, whatever the address and the interface name are. -/
theorem get_addr_explicit_scope (P : Platform) (dst : isc_netaddr_t) (src : sockaddr)
    (ifname : Option String)
    (hP : P.ISC_PLATFORM_HAVESCOPEID = true)
    (hscope : uint32 src.sin6_scope_id ≠ 0) :
    get_addr P P.AF_INET6 dst src ifname =
      Run.done { family := P.AF_INET6, type := bytes src.sin6_addr 16,
                 zone := uint32 src.sin6_scope_id } := by
  have hne : P.AF_INET6 ≠ P.AF_INET := fun e => P.distinct e.symm
  have huu : uint32 (uint32 src.sin6_scope_id) = uint32 src.sin6_scope_id := by
    unfold uint32; omega
  simp [get_addr, memset_zero, memcpy_sixteen, hne, hP, hscope, isc_netaddr_setzone, huu]

/-- C10, at a concrete input: the link-local address fe80:5::1 with explicit
scope id 3 keeps its 16 bytes, embedded value included, and gets zone 3. -/
theorem get_addr_explicit_scope_witness :
    get_addr linux_like linux_like.AF_INET6 (inet4 9 9 9 9)
        (raw_record 0 [] [0xfe, 0x80, 0, 5, 0, 0, 0, 0, 0, 0, 0, 0, 0, 0, 0, 1] 3 [7])
        (some "en0") =
      Run.done { family := 10,
                 type := [0xfe, 0x80, 0, 5, 0, 0, 0, 0, 0, 0, 0, 0, 0, 0, 0, 1],
                 zone := 3 } :=
  get_addr_explicit_scope linux_like (inet4 9 9 9 9)
    (raw_record 0 [] [0xfe, 0x80, 0, 5, 0, 0, 0, 0, 0, 0, 0, 0, 0, 0, 0, 1] 3 [7])
    (some "en0") rfl (by decide)

/-! ## The traversal engine: lemmas -/

theorem store_result_done {σ : Type}
    (x : Run (isc_result_t × isc_interfaceiter σ × List Call))
    (r : isc_result_t) (iter' : isc_interfaceiter σ) (log : List Call)
    (h : store_result x = Run.done (r, iter', log)) :
    ∃ iter₀, x = Run.done (r, iter₀, log) ∧ iter' = { iter₀ with result := r } := by
  cases x with
  | done a =>
    obtain ⟨r₀, iter₀, log₀⟩ := a
    simp only [store_result, Run.done.injEq, Prod.mk.injEq] at h
    obtain ⟨h1, h2, h3⟩ := h
    subst h1 h3
    exact ⟨iter₀, rfl, h2.symm⟩
  | abort => simp [store_result] at h
  | timeout => simp [store_result] at h

theorem first_loop_not_ignore {σ : Type} (A : Adapter σ)
    (hnext : ∀ it, (A.internal_next it).1 ≠ ISC_R_IGNORE) :
    ∀ (fuel : Nat) (iter : isc_interfaceiter σ) (log : List Call)
      (r : isc_result_t) (iter' : isc_interfaceiter σ) (log' : List Call),
      first_loop A fuel iter log = Run.done (r, iter', log') → r ≠ ISC_R_IGNORE := by
  intro fuel
  induction fuel with
  | zero => intro iter log r iter' log' h; simp [first_loop] at h
  | succ n ih =>
    intro iter log r iter' log' h
    simp only [first_loop] at h
    split_ifs at h with h1 h2
    · simp only [Run.done.injEq, Prod.mk.injEq] at h
      rw [← h.1]; exact h1
    · simp only [Run.done.injEq, Prod.mk.injEq] at h
      rw [← h.1]; exact hnext _
    · exact ih _ _ _ _ _ h

theorem next_loop_not_ignore {σ : Type} (A : Adapter σ)
    (hnext : ∀ it, (A.internal_next it).1 ≠ ISC_R_IGNORE) :
    ∀ (fuel : Nat) (iter : isc_interfaceiter σ) (log : List Call)
      (r : isc_result_t) (iter' : isc_interfaceiter σ) (log' : List Call),
      next_loop A fuel iter log = Run.done (r, iter', log') → r ≠ ISC_R_IGNORE := by
  intro fuel
  induction fuel with
  | zero => intro iter log r iter' log' h; simp [next_loop] at h
  | succ n ih =>
    intro iter log r iter' log' h
    simp only [next_loop] at h
    split_ifs at h with h1 h2
    · simp only [Run.done.injEq, Prod.mk.injEq] at h
      rw [← h.1]; exact hnext _
    · simp only [Run.done.injEq, Prod.mk.injEq] at h
      rw [← h.1]; exact h2
    · exact ih _ _ _ _ _ h

theorem first_done_inv {σ : Type} (A : Adapter σ) (fuel : Nat)
    (iter iter' : isc_interfaceiter σ) (r : isc_result_t) (log : List Call)
    (h : isc_interfaceiter_first A fuel iter = Run.done (r, iter', log)) :
    VALID_IFITER A iter = true ∧
    ∃ iter₀, first_loop A fuel (A.internal_first iter).2 [Call.internal_first]
        = Run.done (r, iter₀, log) ∧ iter' = { iter₀ with result := r } := by
  unfold isc_interfaceiter_first at h
  split_ifs at h with hv
  · exact ⟨by simpa using hv, store_result_done _ _ _ _ h⟩

theorem next_done_inv {σ : Type} (A : Adapter σ) (fuel : Nat)
    (iter iter' : isc_interfaceiter σ) (r : isc_result_t) (log : List Call)
    (h : isc_interfaceiter_next A fuel iter = Run.done (r, iter', log)) :
    VALID_IFITER A iter = true ∧ iter.result = ISC_R_SUCCESS ∧
    ∃ iter₀, next_loop A fuel iter [] = Run.done (r, iter₀, log) ∧
      iter' = { iter₀ with result := r } := by
  unfold isc_interfaceiter_next at h
  split_ifs at h with hv hr
  · exact ⟨by simpa using hv, by simpa using hr, store_result_done _ _ _ _ h⟩

/-! ## The traversal engine: claims -/

/-- C2 (as stated, refuted): on the table `en0, lo0` with the cursor on `lo0`,
`isc_interfaceiter_next` returns "no more" and leaves a valid iterator, and a
further `isc_interfaceiter_next` on that iterator does not return "no more": it
aborts on `REQUIRE(iter->result == ISC_R_SUCCESS)`. -/
theorem next_after_nomore_counterexample :
    isc_interfaceiter_next tableAdapter 3 (table_iter_at two_interfaces 1 lo0 ISC_R_SUCCESS)
      = Run.done (ISC_R_NOMORE, table_iter_at two_interfaces 2 lo0 ISC_R_NOMORE,
          [Call.internal_next]) ∧
    VALID_IFITER tableAdapter (table_iter_at two_interfaces 2 lo0 ISC_R_NOMORE) = true ∧
    isc_interfaceiter_next tableAdapter 3 (table_iter_at two_interfaces 2 lo0 ISC_R_NOMORE)
      = Run.abort ∧
    isc_interfaceiter_next tableAdapter 3 (table_iter_at two_interfaces 2 lo0 ISC_R_NOMORE)
      ≠ Run.done (ISC_R_NOMORE, table_iter_at two_interfaces 2 lo0 ISC_R_NOMORE, []) := by
  refine ⟨rfl, rfl, rfl, ?_⟩
  intro h
  have h' : (Run.abort : Run (isc_result_t × isc_interfaceiter TableCursor × List Call))
      = Run.done (ISC_R_NOMORE, table_iter_at two_interfaces 2 lo0 ISC_R_NOMORE, []) := h
  cases h'

/-- C2 (amended): exhaustion is terminal but a further `next()` is not legal.
For every adapter and iterator, once `isc_interfaceiter_next` has returned "no
more" (or any outcome other than success), a further call of
`isc_interfaceiter_next` on the resulting iterator fails its precondition
`REQUIRE(iter->result == ISC_R_SUCCESS)` and aborts, whatever the fuel. -/
theorem next_after_nomore_aborts {σ : Type} (A : Adapter σ) (fuel fuel' : Nat)
    (iter iter' : isc_interfaceiter σ) (r : isc_result_t) (log : List Call)
    (h : isc_interfaceiter_next A fuel iter = Run.done (r, iter', log))
    (hr : r ≠ ISC_R_SUCCESS) :
    iter'.result = r ∧ isc_interfaceiter_next A fuel' iter' = Run.abort := by
  obtain ⟨_, _, iter₀, _, hi⟩ := next_done_inv A fuel iter iter' r log h
  have hres : iter'.result = r := by rw [hi]
  refine ⟨hres, ?_⟩
  by_cases hv : VALID_IFITER A iter' = true
  · simp [isc_interfaceiter_next, hv, hres, hr]
  · simp [isc_interfaceiter_next, hv]

/-- C2 (amended), at a concrete input: the table `en0, lo0` with the cursor on
`lo0`. -/
theorem next_after_nomore_aborts_witness :
    (table_iter_at two_interfaces 2 lo0 ISC_R_NOMORE).result = ISC_R_NOMORE ∧
    isc_interfaceiter_next tableAdapter 5 (table_iter_at two_interfaces 2 lo0 ISC_R_NOMORE)
      = Run.abort :=
  next_after_nomore_aborts tableAdapter 3 5 (table_iter_at two_interfaces 1 lo0 ISC_R_SUCCESS)
    (table_iter_at two_interfaces 2 lo0 ISC_R_NOMORE) ISC_R_NOMORE [Call.internal_next]
    rfl (by decide)

/-- C3 (as stated, refuted): on an empty table `internal_first` reports
exhaustion, and `isc_interfaceiter_first` nevertheless asks the adapter to
interpret the record at the cursor: its calls are `internal_first` followed by
`internal_current`. -/
theorem first_empty_table_counterexample :
    (tableAdapter.internal_first (table_iter [])).1 = ISC_R_NOMORE ∧
    isc_interfaceiter_first tableAdapter 1 (table_iter [])
      = Run.done (ISC_R_NOMORE, table_iter_at [] 0 ifdata_zero ISC_R_NOMORE,
          [Call.internal_first, Call.internal_current]) ∧
    Call.internal_current ∈ [Call.internal_first, Call.internal_current] := by
  refine ⟨rfl, rfl, ?_⟩
  simp

/-- C3 (amended): `isc_interfaceiter_first` discards whatever `internal_first`
reports and always asks the adapter to interpret the record at the reset cursor.
When that interpretation is not "ignore" (as when `internal_current` reports
exhaustion for an empty table), it stops there and returns exactly that
outcome, having called `internal_first` once and `internal_current` once. -/
theorem first_interprets_at_reset_cursor {σ : Type} (A : Adapter σ) (fuel : Nat)
    (iter : isc_interfaceiter σ)
    (hv : VALID_IFITER A iter = true)
    (hc : (A.internal_current (A.internal_first iter).2).1 ≠ ISC_R_IGNORE) :
    isc_interfaceiter_first A (fuel + 1) iter =
      Run.done ((A.internal_current (A.internal_first iter).2).1,
        { (A.internal_current (A.internal_first iter).2).2 with
            result := (A.internal_current (A.internal_first iter).2).1 },
        [Call.internal_first, Call.internal_current]) := by
  simp [isc_interfaceiter_first, hv, first_loop, hc, store_result]

/-- C3 (amended), at a concrete input: the empty table, where the outcome of
`internal_current` is "no more". -/
theorem first_interprets_at_reset_cursor_witness :
    isc_interfaceiter_first tableAdapter (0 + 1) (table_iter []) =
      Run.done (ISC_R_NOMORE, table_iter_at [] 0 ifdata_zero ISC_R_NOMORE,
        [Call.internal_first, Call.internal_current]) :=
  first_interprets_at_reset_cursor tableAdapter 0 (table_iter []) rfl (by decide)

/-- C4: the per-record "ignore" never reaches the caller.  For every adapter
whose `internal_next` never reports "ignore", whatever `internal_current`
reports, a value returned by `isc_interfaceiter_first` or by
`isc_interfaceiter_next` is not `ISC_R_IGNORE`, and it is the value stored in
`iter->result`. -/
theorem ignore_never_surfaces {σ : Type} (A : Adapter σ)
    (hnext : ∀ it, (A.internal_next it).1 ≠ ISC_R_IGNORE)
    (fuel : Nat) (iter iter' : isc_interfaceiter σ) (r : isc_result_t) (log : List Call) :
    (isc_interfaceiter_first A fuel iter = Run.done (r, iter', log) →
      r ≠ ISC_R_IGNORE ∧ iter'.result = r ∧ iter'.result ≠ ISC_R_IGNORE) ∧
    (isc_interfaceiter_next A fuel iter = Run.done (r, iter', log) →
      r ≠ ISC_R_IGNORE ∧ iter'.result = r ∧ iter'.result ≠ ISC_R_IGNORE) := by
  constructor
  · intro h
    obtain ⟨_, iter₀, hl, hi⟩ := first_done_inv A fuel iter iter' r log h
    have hr := first_loop_not_ignore A hnext _ _ _ _ _ _ hl
    have hres : iter'.result = r := by rw [hi]
    exact ⟨hr, hres, hres ▸ hr⟩
  · intro h
    obtain ⟨_, _, iter₀, hl, hi⟩ := next_done_inv A fuel iter iter' r log h
    have hr := next_loop_not_ignore A hnext _ _ _ _ _ _ hl
    have hres : iter'.result = r := by rw [hi]
    exact ⟨hr, hres, hres ▸ hr⟩

theorem tableAdapter_next_not_ignore (it : isc_interfaceiter TableCursor) :
    (tableAdapter.internal_next it).1 ≠ ISC_R_IGNORE := by
  simp only [tableAdapter]
  split_ifs <;> simp

/-- C4, at a concrete input: on the table "ignored record, `en0`" the first
positioning skips the ignored record and returns success, not "ignore". -/
theorem ignore_never_surfaces_witness :
    isc_interfaceiter_first tableAdapter 3 (table_iter [RawRecord.ignored, RawRecord.usable en0])
      = Run.done (ISC_R_SUCCESS,
          table_iter_at [RawRecord.ignored, RawRecord.usable en0] 1 en0 ISC_R_SUCCESS,
          [Call.internal_first, Call.internal_current, Call.internal_next,
           Call.internal_current]) ∧
    ISC_R_SUCCESS ≠ ISC_R_IGNORE ∧
    (table_iter_at [RawRecord.ignored, RawRecord.usable en0] 1 en0 ISC_R_SUCCESS).result
      = ISC_R_SUCCESS ∧
    (table_iter_at [RawRecord.ignored, RawRecord.usable en0] 1 en0 ISC_R_SUCCESS).result
      ≠ ISC_R_IGNORE :=
  ⟨rfl,
   (ignore_never_surfaces tableAdapter tableAdapter_next_not_ignore 3
      (table_iter [RawRecord.ignored, RawRecord.usable en0])
      (table_iter_at [RawRecord.ignored, RawRecord.usable en0] 1 en0 ISC_R_SUCCESS)
      ISC_R_SUCCESS
      [Call.internal_first, Call.internal_current, Call.internal_next,
       Call.internal_current]).1 rfl⟩

/-- C5: `isc_interfaceiter_current` is idempotent and read-only.  For every
iterator whose `result` is success and whatever the destination buffers hold,
two consecutive calls both return success, both write the stored current
record, so the two records written are identical, and the iterator is left as
it was. -/
theorem current_idempotent {σ : Type} (iter : isc_interfaceiter σ)
    (ifdata₁ ifdata₂ : isc_interface_t) (h : iter.result = ISC_R_SUCCESS) :
    ∃ (out₁ out₂ : isc_interface_t) (iter₁ iter₂ : isc_interfaceiter σ),
      isc_interfaceiter_current iter ifdata₁ = Run.done (ISC_R_SUCCESS, out₁, iter₁) ∧
      isc_interfaceiter_current iter₁ ifdata₂ = Run.done (ISC_R_SUCCESS, out₂, iter₂) ∧
      out₁ = out₂ ∧ out₁ = iter.current ∧ iter₁ = iter ∧ iter₂ = iter := by
  refine ⟨iter.current, iter.current, iter, iter, ?_, ?_, rfl, rfl, rfl, rfl⟩
  · simp [isc_interfaceiter_current, h]
  · simp [isc_interfaceiter_current, h]

/-- C5, at a concrete input: the iterator positioned on `en0`, read twice into
buffers with different previous content. -/
theorem current_idempotent_witness :
    ∃ (out₁ out₂ : isc_interface_t) (iter₁ iter₂ : isc_interfaceiter TableCursor),
      isc_interfaceiter_current (table_iter_at two_interfaces 0 en0 ISC_R_SUCCESS) ifdata_zero
        = Run.done (ISC_R_SUCCESS, out₁, iter₁) ∧
      isc_interfaceiter_current iter₁ lo0 = Run.done (ISC_R_SUCCESS, out₂, iter₂) ∧
      out₁ = out₂ ∧ out₁ = (table_iter_at two_interfaces 0 en0 ISC_R_SUCCESS).current ∧
      iter₁ = table_iter_at two_interfaces 0 en0 ISC_R_SUCCESS ∧
      iter₂ = table_iter_at two_interfaces 0 en0 ISC_R_SUCCESS :=
  current_idempotent (table_iter_at two_interfaces 0 en0 ISC_R_SUCCESS) ifdata_zero lo0 rfl

/-- C6 (the code at the failing input): `isc_interfaceiter_current` does not
check the handle.  On an iterator object that is not valid (magic 0) but whose
stored result is success, it raises no assertion failure: it returns success
and hands out the stored record, whereas `isc_interfaceiter_first` and
`isc_interfaceiter_next` abort on the same object. -/
theorem current_skips_validity_check :
    VALID_IFITER tableAdapter stale_iter = false ∧
    isc_interfaceiter_current stale_iter ifdata_zero
      = Run.done (ISC_R_SUCCESS, en0, stale_iter) ∧
    isc_interfaceiter_first tableAdapter 3 stale_iter = Run.abort ∧
    isc_interfaceiter_next tableAdapter 3 stale_iter = Run.abort :=
  ⟨rfl, rfl, rfl, rfl⟩

/-! ## The table backend: traversal -/

theorem table_first_loop :
    ∀ (n : Nat) (iter : isc_interfaceiter TableCursor) (log : List Call) (fuel : Nat),
      iter.backend.table.length - iter.backend.pos = n → n < fuel →
      ∃ r iter' log', first_loop tableAdapter fuel iter log = Run.done (r, iter', log') ∧
        iter'.backend.table = iter.backend.table ∧ iter'.magic = iter.magic ∧
        iter.backend.pos ≤ iter'.backend.pos ∧
        (accepted (iter.backend.table.drop iter.backend.pos) = [] → r = ISC_R_NOMORE) ∧
        (∀ x xs, accepted (iter.backend.table.drop iter.backend.pos) = x :: xs →
          r = ISC_R_SUCCESS ∧ iter'.current = x ∧
          iter'.backend.pos < iter.backend.table.length ∧
          accepted (iter.backend.table.drop (iter'.backend.pos + 1)) = xs) := by
  intro n
  induction n with
  | zero =>
    intro iter log fuel hn hf
    obtain ⟨f, rfl⟩ : ∃ f, fuel = f + 1 := ⟨fuel - 1, by omega⟩
    have hle : iter.backend.table.length ≤ iter.backend.pos := by omega
    have hget : iter.backend.table[iter.backend.pos]? = none := List.getElem?_eq_none hle
    have hdrop : iter.backend.table.drop iter.backend.pos = [] := List.drop_eq_nil_of_le hle
    refine ⟨ISC_R_NOMORE, iter, log ++ [Call.internal_current], ?_, rfl, rfl, le_refl _,
      fun _ => rfl, ?_⟩
    · simp [first_loop, tableAdapter, hget]
    · intro x xs h
      rw [hdrop] at h
      simp [accepted] at h
  | succ n ih =>
    intro iter log fuel hn hf
    obtain ⟨f, rfl⟩ : ∃ f, fuel = f + 1 := ⟨fuel - 1, by omega⟩
    have hlt : iter.backend.pos < iter.backend.table.length := by omega
    have hdrop := List.drop_eq_getElem_cons hlt
    have hget : iter.backend.table[iter.backend.pos]? = some iter.backend.table[iter.backend.pos] :=
      List.getElem?_eq_getElem hlt
    cases he : iter.backend.table[iter.backend.pos] with
    | usable x =>
      rw [he] at hget hdrop
      refine ⟨ISC_R_SUCCESS, { iter with current := x }, log ++ [Call.internal_current],
        ?_, rfl, rfl, le_refl _, ?_, ?_⟩
      · simp [first_loop, tableAdapter, hget]
      · intro h; rw [hdrop] at h; simp [accepted] at h
      · intro y ys h
        rw [hdrop] at h
        simp only [accepted, List.cons.injEq] at h
        exact ⟨rfl, h.1, hlt, h.2⟩
    | ignored =>
      rw [he] at hget hdrop
      by_cases hend : iter.backend.table.length ≤ iter.backend.pos + 1
      · have hdrop' : iter.backend.table.drop (iter.backend.pos + 1) = [] :=
          List.drop_eq_nil_of_le hend
        refine ⟨ISC_R_NOMORE,
          { iter with backend := { iter.backend with pos := iter.backend.pos + 1 } },
          log ++ [Call.internal_current] ++ [Call.internal_next], ?_, rfl, rfl,
          Nat.le_succ _, fun _ => rfl, ?_⟩
        · simp [first_loop, tableAdapter, hget, hend]
        · intro y ys h
          rw [hdrop, hdrop'] at h
          simp [accepted] at h
      · obtain ⟨r, iter', log', h1, h2, h3, h4, h5, h6⟩ :=
          ih { iter with backend := { iter.backend with pos := iter.backend.pos + 1 } }
            (log ++ [Call.internal_current] ++ [Call.internal_next]) f
            (by simp only; omega) (by omega)
        refine ⟨r, iter', log', ?_, h2, h3, by simp only at h4; omega, ?_, ?_⟩
        · simp [first_loop, tableAdapter, hget, hend]
          simpa [tableAdapter] using h1
        · intro h
          rw [hdrop] at h
          exact h5 h
        · intro y ys h
          rw [hdrop] at h
          exact h6 y ys h

theorem table_next_loop :
    ∀ (n : Nat) (iter : isc_interfaceiter TableCursor) (log : List Call) (fuel : Nat),
      iter.backend.table.length - (iter.backend.pos + 1) = n → n < fuel →
      ∃ r iter' log', next_loop tableAdapter fuel iter log = Run.done (r, iter', log') ∧
        iter'.backend.table = iter.backend.table ∧ iter'.magic = iter.magic ∧
        iter.backend.pos < iter'.backend.pos ∧
        (accepted (iter.backend.table.drop (iter.backend.pos + 1)) = [] → r = ISC_R_NOMORE) ∧
        (∀ x xs, accepted (iter.backend.table.drop (iter.backend.pos + 1)) = x :: xs →
          r = ISC_R_SUCCESS ∧ iter'.current = x ∧
          iter'.backend.pos < iter.backend.table.length ∧
          accepted (iter.backend.table.drop (iter'.backend.pos + 1)) = xs) := by
  intro n
  induction n with
  | zero =>
    intro iter log fuel hn hf
    obtain ⟨f, rfl⟩ : ∃ f, fuel = f + 1 := ⟨fuel - 1, by omega⟩
    have hend : iter.backend.table.length ≤ iter.backend.pos + 1 := by omega
    have hdrop : iter.backend.table.drop (iter.backend.pos + 1) = [] :=
      List.drop_eq_nil_of_le hend
    refine ⟨ISC_R_NOMORE,
      { iter with backend := { iter.backend with pos := iter.backend.pos + 1 } },
      log ++ [Call.internal_next], ?_, rfl, rfl, Nat.lt_succ_self _, fun _ => rfl, ?_⟩
    · simp [next_loop, tableAdapter, hend]
    · intro x xs h
      rw [hdrop] at h
      simp [accepted] at h
  | succ n ih =>
    intro iter log fuel hn hf
    obtain ⟨f, rfl⟩ : ∃ f, fuel = f + 1 := ⟨fuel - 1, by omega⟩
    have hlt : iter.backend.pos + 1 < iter.backend.table.length := by omega
    have hend : ¬ iter.backend.table.length ≤ iter.backend.pos + 1 := by omega
    have hdrop := List.drop_eq_getElem_cons hlt
    have hget : iter.backend.table[iter.backend.pos + 1]?
        = some iter.backend.table[iter.backend.pos + 1] := List.getElem?_eq_getElem hlt
    cases he : iter.backend.table[iter.backend.pos + 1] with
    | usable x =>
      rw [he] at hget hdrop
      refine ⟨ISC_R_SUCCESS,
        { iter with backend := { iter.backend with pos := iter.backend.pos + 1 }, current := x },
        log ++ [Call.internal_next] ++ [Call.internal_current],
        ?_, rfl, rfl, Nat.lt_succ_self _, ?_, ?_⟩
      · simp [next_loop, tableAdapter, hget, hend]
      · intro h; rw [hdrop] at h; simp [accepted] at h
      · intro y ys h
        rw [hdrop] at h
        simp only [accepted, List.cons.injEq] at h
        exact ⟨rfl, h.1, hlt, h.2⟩
    | ignored =>
      rw [he] at hget hdrop
      obtain ⟨r, iter', log', h1, h2, h3, h4, h5, h6⟩ :=
        ih { iter with backend := { iter.backend with pos := iter.backend.pos + 1 } }
          (log ++ [Call.internal_next] ++ [Call.internal_current]) f
          (by simp only; omega) (by omega)
      refine ⟨r, iter', log', ?_, h2, h3, by simp only at h4; omega, ?_, ?_⟩
      · simp [next_loop, tableAdapter, hget, hend]
        simpa [tableAdapter] using h1
      · intro h
        rw [hdrop] at h
        exact h5 h
      · intro y ys h
        rw [hdrop] at h
        exact h6 y ys h

theorem table_walk (fuel : Nat) :
    ∀ (steps : Nat) (iter : isc_interfaceiter TableCursor) (ifdata : isc_interface_t)
      (seen : List isc_interface_t),
      VALID_IFITER tableAdapter iter = true → iter.result = ISC_R_SUCCESS →
      iter.backend.pos < iter.backend.table.length →
      iter.backend.table.length - iter.backend.pos < steps →
      iter.backend.table.length ≤ fuel →
      walk tableAdapter fuel steps ISC_R_SUCCESS iter ifdata seen =
        Run.done (ISC_R_NOMORE,
          seen ++ iter.current :: accepted (iter.backend.table.drop (iter.backend.pos + 1))) := by
  intro steps
  induction steps with
  | zero => intro iter ifdata seen _ _ _ hs _; omega
  | succ s ih =>
    intro iter ifdata seen hv hr hp hs hf
    obtain ⟨r, iter', log', h1, h2, h3, h4, h5, h6⟩ :=
      table_next_loop (iter.backend.table.length - (iter.backend.pos + 1)) iter [] fuel rfl
        (by omega)
    have hnext : isc_interfaceiter_next tableAdapter fuel iter =
        Run.done (r, { iter' with result := r }, log') := by
      simp [isc_interfaceiter_next, hv, hr, h1, store_result]
    have hcur : isc_interfaceiter_current iter ifdata =
        Run.done (ISC_R_SUCCESS, iter.current, iter) := by
      simp [isc_interfaceiter_current, hr]
    cases hacc : accepted (iter.backend.table.drop (iter.backend.pos + 1)) with
    | nil =>
      have hr' : r = ISC_R_NOMORE := h5 hacc
      subst hr'
      obtain ⟨s', rfl⟩ : ∃ s', s = s' + 1 := ⟨s - 1, by omega⟩
      simp [walk, hcur, hnext]
    | cons x xs =>
      obtain ⟨hr', hx, hp', hrest⟩ := h6 x xs hacc
      subst hr'
      have hv' : VALID_IFITER tableAdapter { iter' with result := ISC_R_SUCCESS } = true := by
        simpa [VALID_IFITER, h3] using hv
      have := ih { iter' with result := ISC_R_SUCCESS } iter.current (seen ++ [iter.current])
        hv' rfl (by simpa [h2] using hp') (by simp only [h2]; omega) (by simpa [h2] using hf)
      simp only [walk, hcur, hnext]
      simp only [h2, hrest] at this
      simpa [hx] using this

/-- C1: enumeration of a finite table.  With the adapter modelled as a finite
sequence of raw records, each interpreted as a record or as "ignore",
`isc_interfaceiter_first` followed by `isc_interfaceiter_next` while the result
is success hands out through `isc_interfaceiter_current` exactly the records of
the entries that are not ignored, each once and in table order, and the call
after the last of them returns "no more".  The loops need no more fuel than the
table is long, plus one. -/
theorem enumerate_table (iter : isc_interfaceiter TableCursor) (ifdata : isc_interface_t)
    (fuel steps : Nat)
    (hv : VALID_IFITER tableAdapter iter = true)
    (hf : iter.backend.table.length < fuel)
    (hs : iter.backend.table.length < steps) :
    enumerate tableAdapter fuel steps iter ifdata =
      Run.done (ISC_R_NOMORE, accepted iter.backend.table) := by
  obtain ⟨r, iter', log', h1, h2, h3, _, h5, h6⟩ :=
    table_first_loop iter.backend.table.length (tableAdapter.internal_first iter).2
      [Call.internal_first] fuel (by simp [tableAdapter]) hf
  have h2' : iter'.backend.table = iter.backend.table := by simpa [tableAdapter] using h2
  have h3' : iter'.magic = iter.magic := by simpa [tableAdapter] using h3
  have hfirst : isc_interfaceiter_first tableAdapter fuel iter =
      Run.done (r, { iter' with result := r }, log') := by
    simp [isc_interfaceiter_first, hv, h1, store_result]
  obtain ⟨s, rfl⟩ : ∃ s, steps = s + 1 := ⟨steps - 1, by omega⟩
  cases hacc : accepted iter.backend.table with
  | nil =>
    have hr : r = ISC_R_NOMORE := h5 (by simpa [tableAdapter] using hacc)
    subst hr
    simp [enumerate, hfirst, walk]
  | cons x xs =>
    obtain ⟨hr, hx, hp, hrest⟩ := h6 x xs (by simpa [tableAdapter] using hacc)
    subst hr
    have hv' : VALID_IFITER tableAdapter { iter' with result := ISC_R_SUCCESS } = true := by
      simpa [VALID_IFITER, h3'] using hv
    have hw := table_walk fuel (s + 1) { iter' with result := ISC_R_SUCCESS } ifdata []
      hv' rfl (by simpa [tableAdapter, h2'] using hp) (by simp only [h2']; omega)
      (by simp only [h2']; omega)
    have hrest' : accepted (iter.backend.table.drop (iter'.backend.pos + 1)) = xs := by
      simpa [tableAdapter] using hrest
    simp only [enumerate, hfirst]
    rw [hw]
    simp [h2', hrest', hx]

/-- C1, at the scenario of the design document: the table `en0` (192.0.2.5/24),
`lo0` (127.0.0.1/8) yields the two records in that order and then "no more". -/
theorem enumerate_table_witness :
    enumerate tableAdapter 3 3 (table_iter two_interfaces) ifdata_zero =
      Run.done (ISC_R_NOMORE, [en0, lo0]) :=
  enumerate_table (table_iter two_interfaces) ifdata_zero 3 3 rfl (by decide) (by decide)

/-! ## Address normalization: further claims -/

theorem get_addr_inet6_done (P : Platform) (dst : isc_netaddr_t) (src : sockaddr)
    (ifname : Option String) :
    ∃ out : isc_netaddr_t, get_addr P P.AF_INET6 dst src ifname = Run.done out := by
  have hne : P.AF_INET6 ≠ P.AF_INET := fun e => P.distinct e.symm
  simp only [get_addr, hne, if_false, if_true]
  repeat' split
  all_goals exact ⟨_, rfl⟩

/-- C11: `get_addr` fails with a fatal assertion exactly when the family
argument is neither `AF_INET` nor `AF_INET6`; for `AF_INET` and `AF_INET6` it
always completes and yields an address, and it has no loop to run out of
fuel in. -/
theorem get_addr_abort_iff (P : Platform) (family : Nat) (dst : isc_netaddr_t)
    (src : sockaddr) (ifname : Option String) :
    (get_addr P family dst src ifname = Run.abort ↔
      family ≠ P.AF_INET ∧ family ≠ P.AF_INET6) ∧
    ((family = P.AF_INET ∨ family = P.AF_INET6) →
      ∃ out : isc_netaddr_t, get_addr P family dst src ifname = Run.done out) ∧
    get_addr P family dst src ifname ≠ Run.timeout := by
  by_cases h4 : family = P.AF_INET
  · simp [get_addr, h4]
  · by_cases h6 : family = P.AF_INET6
    · subst h6
      obtain ⟨out, hout⟩ := get_addr_inet6_done P dst src ifname
      simp [hout]
    · simp [get_addr, h4, h6]

/-- C11, at concrete inputs: family 7 aborts, families 2 and 10 complete. -/
theorem get_addr_abort_iff_witness :
    get_addr linux_like 7 (inet4 0 0 0 0) (raw_record 7 [1, 2, 3, 4] [] 0 []) none
      = Run.abort ∧
    (∃ out : isc_netaddr_t,
      get_addr linux_like 2 (inet4 0 0 0 0) (raw_record 7 [1, 2, 3, 4] [] 0 []) none
        = Run.done out) ∧
    (∃ out : isc_netaddr_t,
      get_addr linux_like 10 (inet4 0 0 0 0) (raw_record 7 [1, 2, 3, 4] [] 0 []) none
        = Run.done out) :=
  ⟨(get_addr_abort_iff linux_like 7 (inet4 0 0 0 0) (raw_record 7 [1, 2, 3, 4] [] 0 [])
      none).1.2 (by decide),
   (get_addr_abort_iff linux_like 2 (inet4 0 0 0 0) (raw_record 7 [1, 2, 3, 4] [] 0 [])
      none).2.1 (by decide),
   (get_addr_abort_iff linux_like 10 (inet4 0 0 0 0) (raw_record 7 [1, 2, 3, 4] [] 0 [])
      none).2.1 (by decide)⟩

/-- C15: only unicast link-local addresses are rewritten.  For every raw IPv6
record with explicit scope id 0 whose address is not in fe80::/10, `get_addr`
with family `AF_INET6` yields the raw 16 bytes as payload and zone 0, whatever
the interface name and the name-to-index service are, on every platform. -/
theorem get_addr_not_linklocal (P : Platform) (dst : isc_netaddr_t) (src : sockaddr)
    (ifname : Option String)
    (hscope : uint32 src.sin6_scope_id = 0)
    (hnl : ¬ (octet src.sin6_addr 0 = 0xfe ∧ octet src.sin6_addr 1 &&& 0xc0 = 0x80)) :
    get_addr P P.AF_INET6 dst src ifname =
      Run.done { family := P.AF_INET6, type := bytes src.sin6_addr 16, zone := 0 } := by
  have hne : P.AF_INET6 ≠ P.AF_INET := fun e => P.distinct e.symm
  have hl : IN6_IS_ADDR_LINKLOCAL src.sin6_addr = false := by
    cases h : IN6_IS_ADDR_LINKLOCAL src.sin6_addr
    · rfl
    · exact absurd ((linklocal_iff _).1 h) hnl
  cases hP : P.ISC_PLATFORM_HAVESCOPEID
  · simp [get_addr, memset_zero, memcpy_sixteen, hne, hP]
  · simp [get_addr, memset_zero, memcpy_sixteen, hne, hP, hscope, hl]

/-- C15, at concrete inputs: the netmask ffff:ffff:ffff:ffff:: and the
multicast address ff02:5::1, both without explicit scope id, are copied
unchanged and get zone 0 although a name that resolves to 7 is supplied. -/
theorem get_addr_not_linklocal_witness :
    get_addr linux_like linux_like.AF_INET6 (inet4 9 9 9 9)
        (raw_record 0 [] [255, 255, 255, 255, 255, 255, 255, 255, 0, 0, 0, 0, 0, 0, 0, 0] 0 [])
        (some "en0") =
      Run.done { family := 10,
                 type := [255, 255, 255, 255, 255, 255, 255, 255, 0, 0, 0, 0, 0, 0, 0, 0],
                 zone := 0 } ∧
    get_addr linux_like linux_like.AF_INET6 (inet4 9 9 9 9)
        (raw_record 0 [] [0xff, 0x02, 0, 5, 0, 0, 0, 0, 0, 0, 0, 0, 0, 0, 0, 1] 0 [])
        (some "en0") =
      Run.done { family := 10,
                 type := [0xff, 0x02, 0, 5, 0, 0, 0, 0, 0, 0, 0, 0, 0, 0, 0, 1],
                 zone := 0 } :=
  ⟨get_addr_not_linklocal linux_like (inet4 9 9 9 9)
      (raw_record 0 [] [255, 255, 255, 255, 255, 255, 255, 255, 0, 0, 0, 0, 0, 0, 0, 0] 0 [])
      (some "en0") (by decide) (by decide),
   get_addr_not_linklocal linux_like (inet4 9 9 9 9)
      (raw_record 0 [] [0xff, 0x02, 0, 5, 0, 0, 0, 0, 0, 0, 0, 0, 0, 0, 0, 1] 0 [])
      (some "en0") (by decide) (by decide)⟩

/-! ## Bit sets: lemmas and claims -/

theorem dns_bitset_t_eq (n : Nat) : dns_bitset_t n = n % 2 ^ 64 := by
  simp [dns_bitset_t]

theorem dns_bit_mask_eq (bit : Nat) (h : bit < 64) : dns_bit_mask bit = 2 ^ bit := by
  have hlt : 2 ^ bit < 2 ^ 64 := Nat.pow_lt_pow_right (by decide) h
  rw [dns_bit_mask, dns_bitset_t_eq, Nat.one_shiftLeft, Nat.mod_eq_of_lt hlt]

theorem dns_bit_check_eq (bit bitset : Nat) (h : bit < 64) :
    DNS_BIT_CHECK bit bitset = bitset.testBit bit := by
  have hpos : 0 < 2 ^ bit := Nat.two_pow_pos bit
  have hb : (bitset % 2 ^ 64).testBit bit = bitset.testBit bit := by
    rw [Nat.testBit_mod_two_pow]; simp [h]
  rw [DNS_BIT_CHECK, dns_bit_mask_eq bit h, dns_bitset_t_eq, Nat.and_two_pow, hb]
  cases bitset.testBit bit
  · simp; omega
  · simp

theorem dns_bit_set_testBit (bit bitset k : Nat) (h : bit < 64) :
    (DNS_BIT_SET bit bitset).testBit k
      = ((decide (k < 64) && bitset.testBit k) || decide (bit = k)) := by
  rw [DNS_BIT_SET, dns_bit_mask_eq bit h, dns_bitset_t_eq, Nat.testBit_or,
    Nat.testBit_mod_two_pow, Nat.testBit_two_pow]

theorem dns_bit_clear_testBit (bit bitset k : Nat) (h : bit < 64) :
    (DNS_BIT_CLEAR bit bitset).testBit k
      = ((decide (k < 64) && bitset.testBit k) && !decide (bit = k)) := by
  have hlt : 2 ^ bit < 2 ^ 64 := Nat.pow_lt_pow_right (by decide) h
  have hc : 18446744073709551615 - 2 ^ bit = 2 ^ 64 - (2 ^ bit + 1) := by
    have : (18446744073709551615 : Nat) = 2 ^ 64 - 1 := by norm_num
    omega
  rw [DNS_BIT_CLEAR, dns_bit_mask_eq bit h, dns_bitset_t_eq, hc, Nat.testBit_and,
    Nat.testBit_mod_two_pow, Nat.testBit_two_pow_sub_succ hlt, Nat.testBit_two_pow]
  cases decide (k < 64) <;> simp

/-- C19: for every bit set `b` and all bit positions `i, j < 64`,
`DNS_BIT_CHECK(j, b)` reads bit `j` of `b`, and after `DNS_BIT_SET(i, b)` the
check `DNS_BIT_CHECK(j, b)` is true if and only if `j = i` or bit `j` of `b`
was set before; so the set bit reads back true, no other bit of the bit set
changes (the new bit set has exactly the bits of the 64-bit `b` and bit `i`),
and `DNS_BIT_SET` is idempotent. -/
theorem dns_bit_set_check (b i j : Nat) (hi : i < 64) (hj : j < 64) :
    DNS_BIT_CHECK j b = b.testBit j ∧
    (DNS_BIT_CHECK j (DNS_BIT_SET i b) = true ↔ (j = i ∨ b.testBit j = true)) ∧
    (DNS_BIT_CHECK j (DNS_BIT_SET i b) = true ↔ (j = i ∨ DNS_BIT_CHECK j b = true)) ∧
    DNS_BIT_CHECK i (DNS_BIT_SET i b) = true ∧
    (j ≠ i → DNS_BIT_CHECK j (DNS_BIT_SET i b) = DNS_BIT_CHECK j b) ∧
    (j ≠ i → (DNS_BIT_SET i b).testBit j = b.testBit j) ∧
    (∀ k, (DNS_BIT_SET i b).testBit k
      = ((decide (k < 64) && b.testBit k) || decide (k = i))) ∧
    DNS_BIT_SET i (DNS_BIT_SET i b) = DNS_BIT_SET i b := by
  have hbits : ∀ k, (DNS_BIT_SET i b).testBit k
      = ((decide (k < 64) && b.testBit k) || decide (k = i)) := by
    intro k
    rw [dns_bit_set_testBit _ _ _ hi]
    by_cases hik : i = k
    · subst hik; simp
    · have hki : ¬ k = i := fun e => hik e.symm
      simp [hik, hki]
  have hcheck : DNS_BIT_CHECK j (DNS_BIT_SET i b) = true ↔ (j = i ∨ b.testBit j = true) := by
    rw [dns_bit_check_eq _ _ hj, hbits j]
    simp only [hj, decide_True, Bool.true_and, Bool.or_eq_true, decide_eq_true_eq]
    exact Or.comm
  refine ⟨dns_bit_check_eq _ _ hj, hcheck, ?_, ?_, ?_, ?_, hbits, ?_⟩
  · rw [dns_bit_check_eq j b hj]
    exact hcheck
  · rw [dns_bit_check_eq _ _ hi, hbits i]
    simp
  · intro hne
    rw [dns_bit_check_eq _ _ hj, dns_bit_check_eq _ _ hj, hbits j]
    simp [hj, hne]
  · intro hne
    rw [hbits j]
    simp [hj, hne]
  · apply Nat.eq_of_testBit_eq
    intro k
    rw [dns_bit_set_testBit _ _ _ hi, dns_bit_set_testBit _ _ _ hi]
    cases decide (k < 64) <;> cases b.testBit k <;> cases h : decide (i = k) <;> simp_all

/-- C19, at a concrete input: setting bit 63 of the bit set 5 (bits 0 and 2).
Bit 2 was set and still checks true, bit 1 was clear and still checks false,
bit 63 now checks true, and the new bit set is 2^63 + 5. -/
theorem dns_bit_set_check_witness :
    DNS_BIT_CHECK 2 5 = true ∧
    DNS_BIT_CHECK 1 5 = false ∧
    DNS_BIT_CHECK 2 (DNS_BIT_SET 63 5) = true ∧
    DNS_BIT_CHECK 1 (DNS_BIT_SET 63 5) = false ∧
    DNS_BIT_CHECK 63 (DNS_BIT_SET 63 5) = true ∧
    DNS_BIT_SET 63 5 = 9223372036854775813 ∧
    DNS_BIT_SET 63 (DNS_BIT_SET 63 5) = DNS_BIT_SET 63 5 :=
  ⟨by rw [(dns_bit_set_check 5 63 2 (by decide) (by decide)).1]; decide,
   by rw [(dns_bit_set_check 5 63 1 (by decide) (by decide)).1]; decide,
   (dns_bit_set_check 5 63 2 (by decide) (by decide)).2.1.2 (Or.inr (by decide)),
   by
     rw [(dns_bit_set_check 5 63 1 (by decide) (by decide)).2.2.2.2.1 (by decide)]
     decide,
   (dns_bit_set_check 5 63 2 (by decide) (by decide)).2.2.2.1,
   by decide,
   (dns_bit_set_check 5 63 2 (by decide) (by decide)).2.2.2.2.2.2.2⟩

/-- C20: for every 64-bit bit set `b` and all bit positions `i, j < 64`, after
`DNS_BIT_CLEAR(i, b)` the check `DNS_BIT_CHECK(j, b)` is true if and only if
`j ≠ i` and bit `j` was set before; and `DNS_BIT_CLEAR` after `DNS_BIT_SET` of
the same bit, on a bit set where that bit was clear, gives back the original
bit set. -/
theorem dns_bit_clear_check (b i j : Nat) (hb : b < 2 ^ 64) (hi : i < 64) (hj : j < 64) :
    (DNS_BIT_CHECK j (DNS_BIT_CLEAR i b) = true ↔ (j ≠ i ∧ DNS_BIT_CHECK j b = true)) ∧
    (DNS_BIT_CHECK i b = false → DNS_BIT_CLEAR i (DNS_BIT_SET i b) = b) := by
  refine ⟨?_, ?_⟩
  · rw [dns_bit_check_eq _ _ hj, dns_bit_check_eq _ _ hj, dns_bit_clear_testBit _ _ _ hi]
    simp only [hj, decide_True, Bool.true_and, Bool.and_eq_true, Bool.not_eq_true',
      decide_eq_false_iff_not]
    constructor
    · rintro ⟨h1, h2⟩
      exact ⟨fun e => h2 e.symm, h1⟩
    · rintro ⟨h1, h2⟩
      exact ⟨h2, fun e => h1 e.symm⟩
  · intro hclear
    rw [dns_bit_check_eq _ _ hi] at hclear
    apply Nat.eq_of_testBit_eq
    intro k
    rw [dns_bit_clear_testBit _ _ _ hi, dns_bit_set_testBit _ _ _ hi]
    by_cases hk : k < 64
    · by_cases hik : i = k
      · subst hik
        simp [hclear]
      · simp [hk, hik]
    · have hbk : b.testBit k = false :=
        Nat.testBit_lt_two_pow (lt_of_lt_of_le hb (Nat.pow_le_pow_right (by decide) (by omega)))
      simp [hk, hbk]

/-- C20, at a concrete input: bit 63 of the bit set 5 is clear; clearing it
keeps bit 2, and setting and then clearing it gives 5 back. -/
theorem dns_bit_clear_check_witness :
    (DNS_BIT_CHECK 2 (DNS_BIT_CLEAR 63 5) = true ↔ (2 ≠ 63 ∧ DNS_BIT_CHECK 2 5 = true)) ∧
    DNS_BIT_CLEAR 63 (DNS_BIT_SET 63 5) = 5 :=
  ⟨(dns_bit_clear_check 5 63 2 (by norm_num) (by decide) (by decide)).1,
   (dns_bit_clear_check 5 63 2 (by norm_num) (by decide) (by decide)).2 (by decide)⟩

/-! ## The traversal engine: further lemmas -/

theorem first_loop_ne_abort {σ : Type} (A : Adapter σ) :
    ∀ (fuel : Nat) (iter : isc_interfaceiter σ) (log : List Call),
      first_loop A fuel iter log ≠ Run.abort := by
  intro fuel
  induction fuel with
  | zero => intro iter log; simp [first_loop]
  | succ n ih =>
    intro iter log
    simp only [first_loop]
    split_ifs
    · simp
    · simp
    · exact ih _ _

theorem next_loop_ne_abort {σ : Type} (A : Adapter σ) :
    ∀ (fuel : Nat) (iter : isc_interfaceiter σ) (log : List Call),
      next_loop A fuel iter log ≠ Run.abort := by
  intro fuel
  induction fuel with
  | zero => intro iter log; simp [next_loop]
  | succ n ih =>
    intro iter log
    simp only [next_loop]
    split_ifs
    · simp
    · simp
    · exact ih _ _

theorem store_result_abort_iff {σ : Type}
    (x : Run (isc_result_t × isc_interfaceiter σ × List Call)) :
    store_result x = Run.abort ↔ x = Run.abort := by
  cases x with
  | done a => obtain ⟨r, it, log⟩ := a; simp [store_result]
  | abort => simp [store_result]
  | timeout => simp [store_result]

theorem first_loop_magic {σ : Type} (A : Adapter σ) (hA : preserves_magic A) :
    ∀ (fuel : Nat) (iter : isc_interfaceiter σ) (log : List Call)
      (r : isc_result_t) (iter' : isc_interfaceiter σ) (log' : List Call),
      first_loop A fuel iter log = Run.done (r, iter', log') → iter'.magic = iter.magic := by
  intro fuel
  induction fuel with
  | zero => intro iter log r iter' log' h; simp [first_loop] at h
  | succ n ih =>
    intro iter log r iter' log' h
    simp only [first_loop] at h
    split_ifs at h with h1 h2
    · simp only [Run.done.injEq, Prod.mk.injEq] at h
      rw [← h.2.1]; exact (hA iter).2.2
    · simp only [Run.done.injEq, Prod.mk.injEq] at h
      rw [← h.2.1, (hA _).2.1]; exact (hA iter).2.2
    · rw [ih _ _ _ _ _ h, (hA _).2.1]; exact (hA iter).2.2

theorem next_loop_magic {σ : Type} (A : Adapter σ) (hA : preserves_magic A) :
    ∀ (fuel : Nat) (iter : isc_interfaceiter σ) (log : List Call)
      (r : isc_result_t) (iter' : isc_interfaceiter σ) (log' : List Call),
      next_loop A fuel iter log = Run.done (r, iter', log') → iter'.magic = iter.magic := by
  intro fuel
  induction fuel with
  | zero => intro iter log r iter' log' h; simp [next_loop] at h
  | succ n ih =>
    intro iter log r iter' log' h
    simp only [next_loop] at h
    split_ifs at h with h1 h2
    · simp only [Run.done.injEq, Prod.mk.injEq] at h
      rw [← h.2.1]; exact (hA iter).2.1
    · simp only [Run.done.injEq, Prod.mk.injEq] at h
      rw [← h.2.1, (hA _).2.2]; exact (hA iter).2.1
    · rw [ih _ _ _ _ _ h, (hA _).2.2]; exact (hA iter).2.1

theorem first_loop_of_next_loop {σ : Type} (A : Adapter σ) :
    ∀ (fuel : Nat) (iter : isc_interfaceiter σ) (log : List Call)
      (v : isc_result_t × isc_interfaceiter σ × List Call),
      (A.internal_current iter).1 = ISC_R_IGNORE →
      next_loop A fuel (A.internal_current iter).2 (log ++ [Call.internal_current])
        = Run.done v →
      first_loop A (fuel + 1) iter log = Run.done v := by
  intro fuel
  induction fuel with
  | zero => intro iter log v _ h; simp [next_loop] at h
  | succ n ih =>
    intro iter log v hc h
    rw [first_loop]
    simp only [hc, ne_eq, not_true_eq_false, if_false]
    rw [next_loop] at h
    by_cases hn : (A.internal_next (A.internal_current iter).2).1 = ISC_R_SUCCESS
    · simp only [hn, ne_eq, not_true_eq_false, if_false] at h ⊢
      by_cases hc' : (A.internal_current (A.internal_next (A.internal_current iter).2).2).1
          = ISC_R_IGNORE
      · simp only [hc', ne_eq, not_true_eq_false, if_false] at h
        exact ih _ _ v hc' h
      · simp only [hc', ne_eq, not_false_eq_true, if_true] at h
        rw [first_loop]
        simp only [hc', ne_eq, not_false_eq_true, if_true]
        exact h
    · simp only [hn, ne_eq, not_false_eq_true, if_true] at h ⊢
      exact h

theorem next_loop_of_first_loop {σ : Type} (A : Adapter σ) :
    ∀ (fuel : Nat) (iter : isc_interfaceiter σ) (log : List Call)
      (v : isc_result_t × isc_interfaceiter σ × List Call),
      (A.internal_current iter).1 = ISC_R_IGNORE →
      first_loop A (fuel + 1) iter log = Run.done v →
      next_loop A (fuel + 1) (A.internal_current iter).2 (log ++ [Call.internal_current])
        = Run.done v := by
  intro fuel
  induction fuel with
  | zero =>
    intro iter log v hc h
    rw [first_loop] at h
    simp only [hc, ne_eq, not_true_eq_false, if_false] at h
    rw [next_loop]
    by_cases hn : (A.internal_next (A.internal_current iter).2).1 = ISC_R_SUCCESS
    · simp [hn, first_loop] at h
    · simp only [hn, ne_eq, not_false_eq_true, if_true] at h ⊢
      exact h
  | succ n ih =>
    intro iter log v hc h
    rw [first_loop] at h
    simp only [hc, ne_eq, not_true_eq_false, if_false] at h
    rw [next_loop]
    by_cases hn : (A.internal_next (A.internal_current iter).2).1 = ISC_R_SUCCESS
    · simp only [hn, ne_eq, not_true_eq_false, if_false] at h ⊢
      by_cases hc' : (A.internal_current (A.internal_next (A.internal_current iter).2).2).1
          = ISC_R_IGNORE
      · simp only [hc', ne_eq, not_true_eq_false, if_false]
        exact ih _ _ v hc' h
      · rw [first_loop] at h
        simp only [hc', ne_eq, not_false_eq_true, if_true] at h ⊢
        exact h
    · simp only [hn, ne_eq, not_false_eq_true, if_true] at h ⊢
      exact h

/-! ## The traversal engine: further claims -/

/-- C17: the stored result is the last positioning outcome.  For an adapter that
leaves the magic number alone, after every call of `isc_interfaceiter_first` or
`isc_interfaceiter_next` that returns `r`, the iterator is valid and its
`result` field equals `r`; `isc_interfaceiter_current` is legal on it (does not
abort) exactly when `r` is success, and so is `isc_interfaceiter_next`.  Every
state reached from a valid iterator by such calls is the state after a last
call, so this covers all of them. -/
theorem stored_result_is_last_outcome {σ : Type} (A : Adapter σ) (hA : preserves_magic A)
    (fuel fuel' : Nat) (iter iter' : isc_interfaceiter σ) (r : isc_result_t)
    (log : List Call) (ifdata : isc_interface_t)
    (h : isc_interfaceiter_first A fuel iter = Run.done (r, iter', log) ∨
         isc_interfaceiter_next A fuel iter = Run.done (r, iter', log)) :
    iter'.result = r ∧
    VALID_IFITER A iter' = true ∧
    (isc_interfaceiter_current iter' ifdata ≠ Run.abort ↔ r = ISC_R_SUCCESS) ∧
    (isc_interfaceiter_current iter' ifdata = Run.done (ISC_R_SUCCESS, iter'.current, iter')
      ↔ r = ISC_R_SUCCESS) ∧
    (isc_interfaceiter_next A fuel' iter' ≠ Run.abort ↔ r = ISC_R_SUCCESS) := by
  have key : iter'.result = r ∧ VALID_IFITER A iter' = true := by
    rcases h with h | h
    · obtain ⟨hv, iter₀, hl, hi⟩ := first_done_inv A fuel iter iter' r log h
      have hm := first_loop_magic A hA _ _ _ _ _ _ hl
      refine ⟨by rw [hi], ?_⟩
      have : iter'.magic = iter.magic := by rw [hi]; simp only; rw [hm]; exact (hA iter).1
      simpa [VALID_IFITER, this] using hv
    · obtain ⟨hv, _, iter₀, hl, hi⟩ := next_done_inv A fuel iter iter' r log h
      have hm := next_loop_magic A hA _ _ _ _ _ _ hl
      refine ⟨by rw [hi], ?_⟩
      have : iter'.magic = iter.magic := by rw [hi]; simp only; rw [hm]
      simpa [VALID_IFITER, this] using hv
  obtain ⟨hres, hv⟩ := key
  refine ⟨hres, hv, ?_, ?_, ?_⟩
  · by_cases hr : r = ISC_R_SUCCESS
    · simp [isc_interfaceiter_current, hres, hr]
    · simp [isc_interfaceiter_current, hres, hr]
  · by_cases hr : r = ISC_R_SUCCESS
    · simp [isc_interfaceiter_current, hres, hr]
    · simp [isc_interfaceiter_current, hres, hr]
  · by_cases hr : r = ISC_R_SUCCESS
    · simp only [isc_interfaceiter_next, hv, hres, hr, not_true_eq_false, if_false, ne_eq,
        iff_true]
      intro habs
      exact next_loop_ne_abort A _ _ _ ((store_result_abort_iff _).1 habs)
    · simp [isc_interfaceiter_next, hv, hres, hr]

theorem tableAdapter_preserves_magic : preserves_magic tableAdapter := by
  intro it
  refine ⟨rfl, rfl, ?_⟩
  simp only [tableAdapter]
  split <;> rfl

/-- C17, at a concrete input: after the call of `isc_interfaceiter_next` that
leaves the table `en0, lo0`, the stored result is "no more", and neither
`isc_interfaceiter_current` nor `isc_interfaceiter_next` is legal. -/
theorem stored_result_is_last_outcome_witness :
    (table_iter_at two_interfaces 2 lo0 ISC_R_NOMORE).result = ISC_R_NOMORE ∧
    VALID_IFITER tableAdapter (table_iter_at two_interfaces 2 lo0 ISC_R_NOMORE) = true ∧
    (isc_interfaceiter_current (table_iter_at two_interfaces 2 lo0 ISC_R_NOMORE) ifdata_zero
        ≠ Run.abort ↔ ISC_R_NOMORE = ISC_R_SUCCESS) ∧
    (isc_interfaceiter_current (table_iter_at two_interfaces 2 lo0 ISC_R_NOMORE) ifdata_zero
        = Run.done (ISC_R_SUCCESS,
            (table_iter_at two_interfaces 2 lo0 ISC_R_NOMORE).current,
            table_iter_at two_interfaces 2 lo0 ISC_R_NOMORE)
      ↔ ISC_R_NOMORE = ISC_R_SUCCESS) ∧
    (isc_interfaceiter_next tableAdapter 4 (table_iter_at two_interfaces 2 lo0 ISC_R_NOMORE)
        ≠ Run.abort ↔ ISC_R_NOMORE = ISC_R_SUCCESS) :=
  stored_result_is_last_outcome tableAdapter tableAdapter_preserves_magic 3 4
    (table_iter_at two_interfaces 1 lo0 ISC_R_SUCCESS)
    (table_iter_at two_interfaces 2 lo0 ISC_R_NOMORE) ISC_R_NOMORE [Call.internal_next]
    ifdata_zero (Or.inr rfl)

/-- C18: `isc_interfaceiter_first` does what its description in words says
(reset, interpret, return if not "ignore", otherwise continue as the loop of
`isc_interfaceiter_next`), for every adapter.  Both abort on the same
iterators; whatever `isc_interfaceiter_first` yields (returned outcome, iterator
object with stored result, current record and adapter state, calls made) the
description yields with the same fuel, and whatever the description yields
`isc_interfaceiter_first` yields with one more unit of fuel. -/
theorem first_refines_description {σ : Type} (A : Adapter σ) (fuel : Nat)
    (iter : isc_interfaceiter σ) :
    (isc_interfaceiter_first A fuel iter = Run.abort ↔
      isc_interfaceiter_first_spec A fuel iter = Run.abort) ∧
    (∀ v, isc_interfaceiter_first A fuel iter = Run.done v →
      isc_interfaceiter_first_spec A fuel iter = Run.done v) ∧
    (∀ v, isc_interfaceiter_first_spec A fuel iter = Run.done v →
      isc_interfaceiter_first A (fuel + 1) iter = Run.done v) := by
  by_cases hv : VALID_IFITER A iter = true
  · by_cases hc : (A.internal_current (A.internal_first iter).2).1 = ISC_R_IGNORE
    · refine ⟨?_, ?_, ?_⟩
      · simp only [isc_interfaceiter_first, isc_interfaceiter_first_spec, hv, hc,
          not_true_eq_false, if_false, ne_eq, store_result_abort_iff]
        constructor
        · intro h; exact absurd h (first_loop_ne_abort A _ _ _)
        · intro h; exact absurd h (next_loop_ne_abort A _ _ _)
      · rintro ⟨r, iter', log⟩ h
        obtain ⟨_, iter₀, hl, hi⟩ := first_done_inv A fuel iter iter' r log h
        obtain ⟨n, rfl⟩ : ∃ n, fuel = n + 1 := by
          cases fuel with
          | zero => simp [first_loop] at hl
          | succ n => exact ⟨n, rfl⟩
        have hn := next_loop_of_first_loop A n _ _ _ hc hl
        simp only [List.singleton_append] at hn
        simp [isc_interfaceiter_first_spec, hv, hc, hn, store_result, hi]
      · rintro ⟨r, iter', log⟩ h
        simp only [isc_interfaceiter_first_spec, hv, hc, not_true_eq_false, if_false,
          ne_eq] at h
        obtain ⟨iter₀, hl, hi⟩ := store_result_done _ _ _ _ h
        have hf := first_loop_of_next_loop A fuel (A.internal_first iter).2
          [Call.internal_first] _ hc (by simpa using hl)
        simp [isc_interfaceiter_first, hv, hf, store_result, hi]
    · refine ⟨?_, ?_, ?_⟩
      · simp only [isc_interfaceiter_first, isc_interfaceiter_first_spec, hv, hc,
          not_true_eq_false, if_false, ne_eq, not_false_eq_true, if_true,
          store_result_abort_iff]
        constructor
        · intro h; exact absurd h (first_loop_ne_abort A _ _ _)
        · intro h; cases h
      · rintro ⟨r, iter', log⟩ h
        obtain ⟨_, iter₀, hl, hi⟩ := first_done_inv A fuel iter iter' r log h
        obtain ⟨n, rfl⟩ : ∃ n, fuel = n + 1 := by
          cases fuel with
          | zero => simp [first_loop] at hl
          | succ n => exact ⟨n, rfl⟩
        simp only [first_loop, hc, ne_eq, not_false_eq_true, if_true, Run.done.injEq,
          Prod.mk.injEq, List.singleton_append] at hl
        obtain ⟨h1, h2, h3⟩ := hl
        subst h1 h2 h3
        simp [isc_interfaceiter_first_spec, hv, hc, hi]
      · rintro ⟨r, iter', log⟩ h
        simp only [isc_interfaceiter_first_spec, hv, hc, not_true_eq_false, if_false,
          ne_eq, not_false_eq_true, if_true, Run.done.injEq, Prod.mk.injEq] at h
        obtain ⟨h1, h2, h3⟩ := h
        subst h1 h3
        simp [isc_interfaceiter_first, hv, first_loop, hc, store_result, h2]
  · simp [isc_interfaceiter_first, isc_interfaceiter_first_spec, hv]

/-- C18, at a concrete input: on the table "ignored record, `en0`" the
description yields what `isc_interfaceiter_first` yields with fuel 2. -/
theorem first_refines_description_witness :
    isc_interfaceiter_first_spec tableAdapter 2
        (table_iter [RawRecord.ignored, RawRecord.usable en0]) =
      Run.done (ISC_R_SUCCESS,
        table_iter_at [RawRecord.ignored, RawRecord.usable en0] 1 en0 ISC_R_SUCCESS,
        [Call.internal_first, Call.internal_current, Call.internal_next,
         Call.internal_current]) :=
  (first_refines_description tableAdapter 2
    (table_iter [RawRecord.ignored, RawRecord.usable en0])).2.1 _ rfl

/-! ## Positioning from any state -/

theorem same_adapter_data_symm {σ : Type} (a b : isc_interfaceiter σ)
    (h : same_adapter_data a b) : same_adapter_data b a :=
  ⟨h.1.symm, h.2.1.symm, h.2.2.1.symm, h.2.2.2.1.symm, h.2.2.2.2.symm⟩

theorem first_loop_log {σ : Type} (A : Adapter σ) :
    ∀ (fuel : Nat) (iter : isc_interfaceiter σ) (log : List Call)
      (r : isc_result_t) (iter' : isc_interfaceiter σ) (log' : List Call),
      first_loop A fuel iter log = Run.done (r, iter', log') →
      ∃ rest, log' = log ++ Call.internal_current :: rest := by
  intro fuel
  induction fuel with
  | zero => intro iter log r iter' log' h; simp [first_loop] at h
  | succ n ih =>
    intro iter log r iter' log' h
    simp only [first_loop] at h
    split_ifs at h with h1 h2
    · simp only [Run.done.injEq, Prod.mk.injEq] at h
      exact ⟨[], h.2.2.symm⟩
    · simp only [Run.done.injEq, Prod.mk.injEq] at h
      exact ⟨[Call.internal_next], by rw [← h.2.2]; simp⟩
    · obtain ⟨rest, hrest⟩ := ih _ _ _ _ _ h
      exact ⟨Call.internal_next :: Call.internal_current :: rest, by rw [hrest]; simp⟩

theorem first_loop_same_data {σ : Type} (A : Adapter σ) (hA : reads_own_data A) :
    ∀ (fuel : Nat) (a b : isc_interfaceiter σ) (log : List Call),
      same_adapter_data a b →
      ∀ (r : isc_result_t) (ia : isc_interfaceiter σ) (la : List Call),
        first_loop A fuel a log = Run.done (r, ia, la) →
        ∃ ib, first_loop A fuel b log = Run.done (r, ib, la) ∧ same_adapter_data ia ib ∧
          (r = ISC_R_SUCCESS → ia.current = ib.current) := by
  intro fuel
  induction fuel with
  | zero => intro a b log _ r ia la h; simp [first_loop] at h
  | succ n ih =>
    intro a b log hab r ia la h
    obtain ⟨_, _, _, hc1, hc2, hc3⟩ := hA a b hab
    obtain ⟨_, hn1, hn2, _, _, _⟩ := hA _ _ hc2
    simp only [first_loop] at h ⊢
    rw [← hc1, ← hn1]
    split_ifs at h ⊢ with h1 h2
    · simp only [Run.done.injEq, Prod.mk.injEq] at h
      obtain ⟨e1, e2, e3⟩ := h
      subst e1 e2 e3
      exact ⟨_, rfl, hc2, hc3⟩
    · simp only [Run.done.injEq, Prod.mk.injEq] at h
      obtain ⟨e1, e2, e3⟩ := h
      subst e1 e2 e3
      exact ⟨_, rfl, hn2, fun e => absurd e h2⟩
    · exact ih _ _ _ hn2 r ia la h

theorem tableAdapter_reads_own_data : reads_own_data tableAdapter := by
  intro a b h
  obtain ⟨h1, h2, h3, h4, h5⟩ := h
  have key : (tableAdapter.internal_current a).1 = (tableAdapter.internal_current b).1 ∧
      same_adapter_data (tableAdapter.internal_current a).2 (tableAdapter.internal_current b).2 ∧
      ((tableAdapter.internal_current a).1 = ISC_R_SUCCESS →
        (tableAdapter.internal_current a).2.current
          = (tableAdapter.internal_current b).2.current) := by
    simp only [tableAdapter, ← h3]
    split
    · exact ⟨rfl, ⟨h1, h2, rfl, h4, h5⟩, fun _ => rfl⟩
    · exact ⟨rfl, ⟨h1, h2, h3, h4, h5⟩, fun e => by cases e⟩
    · exact ⟨rfl, ⟨h1, h2, h3, h4, h5⟩, fun e => by cases e⟩
  refine ⟨?_, ?_, ?_, key.1, key.2.1, key.2.2⟩
  · exact ⟨h1, h2, by simp [tableAdapter, h3], h4, h5⟩
  · simp [tableAdapter, h3]
  · exact ⟨h1, h2, by simp [tableAdapter, h3], h4, h5⟩

/-- C12 (as stated, refuted): on a table whose only record is ignored, two valid
iterators with the same adapter data but different stored records both get "no
more" from `isc_interfaceiter_first`, and each keeps its previously stored
record as `current`: the resulting `current` depends on the record stored
before. -/
theorem first_keeps_stale_current_counterexample :
    same_adapter_data (table_iter_at [RawRecord.ignored] 0 en0 ISC_R_SUCCESS)
      (table_iter_at [RawRecord.ignored] 0 lo0 (ISC_R_FAILED 25)) ∧
    isc_interfaceiter_first tableAdapter 2 (table_iter_at [RawRecord.ignored] 0 en0 ISC_R_SUCCESS)
      = Run.done (ISC_R_NOMORE, table_iter_at [RawRecord.ignored] 1 en0 ISC_R_NOMORE,
          [Call.internal_first, Call.internal_current, Call.internal_next]) ∧
    isc_interfaceiter_first tableAdapter 2
        (table_iter_at [RawRecord.ignored] 0 lo0 (ISC_R_FAILED 25))
      = Run.done (ISC_R_NOMORE, table_iter_at [RawRecord.ignored] 1 lo0 ISC_R_NOMORE,
          [Call.internal_first, Call.internal_current, Call.internal_next]) ∧
    (table_iter_at [RawRecord.ignored] 1 en0 ISC_R_NOMORE).current
      ≠ (table_iter_at [RawRecord.ignored] 1 lo0 ISC_R_NOMORE).current := by
  refine ⟨⟨rfl, rfl, rfl, rfl, rfl⟩, rfl, rfl, ?_⟩
  decide

/-- C12 (amended): `isc_interfaceiter_first` requires only a valid instance.
Called with any stored result and current record it does not abort and restarts
from the adapter's beginning (`internal_first`, then `internal_current`).  For
an adapter that works from its own data only, two iterators that differ only in
the stored result and record get the same returned outcome, the same calls, the
same stored result and adapter data, and, when the outcome is success, the same
current record; the loop runs out of fuel on one exactly when it does on the
other. -/
theorem first_from_any_state {σ : Type} (A : Adapter σ) (hA : reads_own_data A)
    (fuel : Nat) (a b : isc_interfaceiter σ)
    (hab : same_adapter_data a b) (hv : VALID_IFITER A a = true) :
    isc_interfaceiter_first A fuel a ≠ Run.abort ∧
    isc_interfaceiter_first A fuel b ≠ Run.abort ∧
    (∀ r ia la, isc_interfaceiter_first A fuel a = Run.done (r, ia, la) →
      ∃ ib, isc_interfaceiter_first A fuel b = Run.done (r, ib, la) ∧
        ia.result = r ∧ ib.result = r ∧ same_adapter_data ia ib ∧
        (r = ISC_R_SUCCESS → ia.current = ib.current) ∧
        ∃ rest, la = Call.internal_first :: Call.internal_current :: rest) ∧
    (isc_interfaceiter_first A fuel a = Run.timeout ↔
      isc_interfaceiter_first A fuel b = Run.timeout) := by
  have hvb : VALID_IFITER A b = true := by
    simpa [VALID_IFITER, hab.1] using hv
  have hna : isc_interfaceiter_first A fuel a ≠ Run.abort := by
    simp only [isc_interfaceiter_first, hv, not_true_eq_false, if_false, ne_eq,
      store_result_abort_iff]
    exact first_loop_ne_abort A _ _ _
  have hnb : isc_interfaceiter_first A fuel b ≠ Run.abort := by
    simp only [isc_interfaceiter_first, hvb, not_true_eq_false, if_false, ne_eq,
      store_result_abort_iff]
    exact first_loop_ne_abort A _ _ _
  have transfer : ∀ (x y : isc_interfaceiter σ), same_adapter_data x y →
      ∀ r ix lx, isc_interfaceiter_first A fuel x = Run.done (r, ix, lx) →
      ∃ iy, isc_interfaceiter_first A fuel y = Run.done (r, iy, lx) ∧
        ix.result = r ∧ iy.result = r ∧ same_adapter_data ix iy ∧
        (r = ISC_R_SUCCESS → ix.current = iy.current) ∧
        ∃ rest, lx = Call.internal_first :: Call.internal_current :: rest := by
    intro x y hxy r ix lx h
    obtain ⟨hvx, i₀, hl, hi⟩ := first_done_inv A fuel x ix r lx h
    have hvy : VALID_IFITER A y = true := by simpa [VALID_IFITER, hxy.1] using hvx
    obtain ⟨j₀, hl', hsame, hcur⟩ :=
      first_loop_same_data A hA fuel _ _ [Call.internal_first] (hA x y hxy).1 r i₀ lx hl
    obtain ⟨rest, hrest⟩ := first_loop_log A _ _ _ _ _ _ hl
    refine ⟨{ j₀ with result := r }, ?_, by rw [hi], rfl, ?_, ?_, rest, by simpa using hrest⟩
    · simp [isc_interfaceiter_first, hvy, hl', store_result]
    · rw [hi]; exact hsame
    · rw [hi]; exact hcur
  refine ⟨hna, hnb, transfer a b hab, ?_⟩
  constructor
  · intro h
    cases hb : isc_interfaceiter_first A fuel b with
    | done v =>
      obtain ⟨r, ib, lb⟩ := v
      obtain ⟨ia, ha, _⟩ := transfer b a (same_adapter_data_symm a b hab) r ib lb hb
      rw [h] at ha; cases ha
    | abort => exact absurd hb hnb
    | timeout => rfl
  · intro h
    cases ha : isc_interfaceiter_first A fuel a with
    | done v =>
      obtain ⟨r, ia, la⟩ := v
      obtain ⟨ib, hb, _⟩ := transfer a b hab r ia la ha
      rw [h] at hb; cases hb
    | abort => exact absurd ha hna
    | timeout => rfl

/-- C12 (amended), at a concrete input: a positioned and an unpositioned iterator
over the table `en0, lo0`, holding different records. -/
theorem first_from_any_state_witness :
    ∃ ib, isc_interfaceiter_first tableAdapter 3
        (table_iter_at two_interfaces 1 ifdata_zero (ISC_R_FAILED 25))
        = Run.done (ISC_R_SUCCESS, ib, [Call.internal_first, Call.internal_current]) ∧
      (table_iter_at two_interfaces 0 en0 ISC_R_SUCCESS).result = ISC_R_SUCCESS ∧
      ib.result = ISC_R_SUCCESS ∧
      same_adapter_data (table_iter_at two_interfaces 0 en0 ISC_R_SUCCESS) ib ∧
      (ISC_R_SUCCESS = ISC_R_SUCCESS →
        (table_iter_at two_interfaces 0 en0 ISC_R_SUCCESS).current = ib.current) ∧
      ∃ rest, [Call.internal_first, Call.internal_current]
        = Call.internal_first :: Call.internal_current :: rest :=
  (first_from_any_state tableAdapter tableAdapter_reads_own_data 3
    (table_iter_at two_interfaces 1 lo0 ISC_R_SUCCESS)
    (table_iter_at two_interfaces 1 ifdata_zero (ISC_R_FAILED 25))
    ⟨rfl, rfl, rfl, rfl, rfl⟩ rfl).2.2.1 ISC_R_SUCCESS
    (table_iter_at two_interfaces 0 en0 ISC_R_SUCCESS)
    [Call.internal_first, Call.internal_current] rfl

/-! ## Destruction -/

/-- C13: `isc_interfaceiter_destroy` on explicit state.  It is a contract
violation (abort) exactly when the handle pointer is NULL, the handle is NULL,
or the instance is not valid.  On a valid iterator it calls `internal_destroy`
exactly once, then releases the scratch buffer exactly once if and only if
`buf` is not NULL, with the recorded `bufsize` (both read after
`internal_destroy` has run), clears the magic, so that the instance is no
longer valid for a backend whose magic is not 0, releases the object and sets
the caller's handle to NULL. -/
theorem destroy_effects {σ : Type} (A : Adapter σ) (sizeof_iter : Nat)
    (iterp : Option (Option (isc_interfaceiter σ))) :
    (isc_interfaceiter_destroy A sizeof_iter iterp = Run.abort ↔
      (iterp = none ∨ iterp = some none ∨
        ∃ iter, iterp = some (some iter) ∧ VALID_IFITER A iter = false)) ∧
    (∀ iter, iterp = some (some iter) → VALID_IFITER A iter = true →
      ∃ log : List Call,
        isc_interfaceiter_destroy A sizeof_iter iterp =
          Run.done (none, { A.internal_destroy iter with magic := 0 }, log) ∧
        log = [Call.internal_destroy] ++
          (match (A.internal_destroy iter).buf with
           | some buf => [Call.isc_mem_put (A.internal_destroy iter).mctx (Pointer.buf buf)
                            (A.internal_destroy iter).bufsize]
           | none => []) ++
          [Call.isc_mem_put (A.internal_destroy iter).mctx Pointer.iter sizeof_iter] ∧
        log.count Call.internal_destroy = 1 ∧
        log.countP is_buffer_release = (if (A.internal_destroy iter).buf = none then 0 else 1) ∧
        (A.IFITER_MAGIC ≠ 0 →
          VALID_IFITER A { A.internal_destroy iter with magic := 0 } = false)) := by
  constructor
  · cases iterp with
    | none => simp [isc_interfaceiter_destroy]
    | some h =>
      cases h with
      | none => simp [isc_interfaceiter_destroy]
      | some iter =>
        by_cases hv : VALID_IFITER A iter = true
        · simp [isc_interfaceiter_destroy, hv]
        · simp [isc_interfaceiter_destroy, hv]
  · intro iter hp hv
    subst hp
    cases hb : (A.internal_destroy iter).buf with
    | none =>
      refine ⟨_, ?_, rfl, ?_, ?_, ?_⟩
      · simp [isc_interfaceiter_destroy, hv, hb]
      · simp [List.count_cons]
      · simp [List.countP_cons, is_buffer_release]
      · intro hm
        simpa [VALID_IFITER] using fun e : 0 = A.IFITER_MAGIC => hm e.symm
    | some buf =>
      refine ⟨_, ?_, rfl, ?_, ?_, ?_⟩
      · simp [isc_interfaceiter_destroy, hv, hb]
      · simp [List.count_cons]
      · simp [List.countP_cons, is_buffer_release]
      · intro hm
        simpa [VALID_IFITER] using fun e : 0 = A.IFITER_MAGIC => hm e.symm

/-- C13, at a concrete input: a valid iterator owning a scratch buffer of 4096
bytes; `internal_destroy` is called, the buffer is released with size 4096, the
object with its size 200, the magic is 0 and the handle is NULL. -/
theorem destroy_effects_witness :
    isc_interfaceiter_destroy tableAdapter 200 (some (some buffered_iter)) =
      Run.done (none, { buffered_iter with magic := 0 },
        [Call.internal_destroy, Call.isc_mem_put 1 (Pointer.buf 64) 4096,
         Call.isc_mem_put 1 Pointer.iter 200]) ∧
    VALID_IFITER tableAdapter { buffered_iter with magic := 0 } = false ∧
    isc_interfaceiter_destroy tableAdapter 200 (some (some stale_iter)) = Run.abort := by
  obtain ⟨log, h1, h2, _, _, h5⟩ :=
    (destroy_effects tableAdapter 200 (some (some buffered_iter))).2 buffered_iter rfl rfl
  refine ⟨?_, h5 (by decide), ?_⟩
  · rw [h1, h2]; rfl
  · exact (destroy_effects tableAdapter 200 (some (some stale_iter))).1.2
      (Or.inr (Or.inr ⟨stale_iter, rfl, rfl⟩))

/-! ## Termination of the positioning loops -/

